import Mathlib

/-!
# Verification of the ralph-commander event-loop core

A shallow embedding, in Lean 4, of the routing, parsing and validation
logic of the `ralph-commander` repository, together with theorems that
settle the specification claims C1 – C10.

Strings are modelled on the byte level, as `List Nat` of UTF-8 code
units.  This matches the Rust sources, which compare, search and slice
payloads byte-wise (`str::contains`, `str::len`, `as_bytes`).  Helper
`strB` converts a Lean string literal to its UTF-8 bytes.

Modelling conventions:
* machine floats (`f32` / `f64` confidence values, scores, thresholds)
  are modelled as exact rationals `ℚ`; all literals appearing in the
  sources are exactly representable;
* Unicode-aware `to_lowercase` / `trim` are modelled by their ASCII
  restrictions (every byte the sources ever test against is ASCII);
* logging (`warn!`, `info!`, diagnostics) and observer callbacks are
  side channels without influence on the verified state and are not
  modelled.
-/

namespace Ralph

/-- UTF-8 encoding of a single scalar value, as byte values. -/
def charUtf8 (c : Char) : List Nat :=
  let n := c.toNat
  if n < 128 then [n]
  else if n < 2048 then [192 + n / 64, 128 + n % 64]
  else if n < 65536 then [224 + n / 4096, 128 + (n / 64) % 64, 128 + n % 64]
  else [240 + n / 262144, 128 + (n / 4096) % 64, 128 + (n / 64) % 64, 128 + n % 64]

/-- The UTF-8 bytes of a string literal (Rust `str::as_bytes`). -/
def strB (s : String) : List Nat := s.data.flatMap charUtf8

/-- Byte 0x27, a single quote; used to assemble message templates that
contain quoted fragments. -/
def qB : List Nat := [39]

/-- Rust `str::contains` for byte strings: does `needle` occur as a
contiguous subsequence of `hay`? -/
def bytesContain (hay needle : List Nat) : Bool :=
  match hay with
  | [] => needle.isEmpty
  | _ :: t => needle.isPrefixOf hay || bytesContain t needle

/-- ASCII lower-casing of a byte string (restriction of Rust
`str::to_lowercase` to ASCII, which covers every pattern the sources
compare against). -/
def lowerB (l : List Nat) : List Nat :=
  l.map (fun b => if 65 ≤ b ∧ b ≤ 90 then b + 32 else b)

/-- ASCII whitespace test used to model Rust `str::trim`. -/
def isWsB (b : Nat) : Bool := b = 9 || b = 10 || b = 11 || b = 12 || b = 13 || b = 32

/-- Rust `str::trim` (ASCII restriction). -/
def trimB (l : List Nat) : List Nat :=
  ((l.dropWhile isWsB).reverse.dropWhile isWsB).reverse

/-- Rust `split(|c| c == newline || c == comma)`: splits a byte string at
every newline or comma, keeping empty segments. -/
def splitSegs : List Nat → List (List Nat)
  | [] => [[]]
  | b :: rest =>
    if b = 10 ∨ b = 44 then [] :: splitSegs rest
    else
      match splitSegs rest with
      | s :: ss => (b :: s) :: ss
      | [] => [[b]]

/-!
## `strip_ansi` (crates/ralph-core/src/event_parser.rs, lines 15 – 66)

The Rust function walks the byte array with an index; the three mutually
recursive functions below are the three control states of that walk:
the main copy loop, the CSI-sequence skipper (`ESC [ … final-byte`) and
the OSC-sequence skipper (`ESC ] … (BEL | ESC \)`).  The final
`String::from_utf8_lossy` re-validation is modelled by `utf8Repair`
below.
-/

/-- The control state of the `strip_ansi` byte walk. -/
inductive AnsiMode where
  /-- the ordinary copy loop -/
  | main
  /-- inside a CSI sequence (`ESC [ … final-byte`) -/
  | csi
  /-- inside an OSC sequence (`ESC ] … (BEL | ESC \)`) -/
  | osc
deriving DecidableEq, Repr

/-- One walk over the bytes, parametrised by the control state:
* `main` copies ordinary bytes and dispatches on the byte after an
  ESC (27);
* `csi` skips parameter bytes until a final byte in 0x40 – 0x7E, skips
  that final byte too, and resumes `main`;
* `osc` skips until BEL (7) or the two-byte terminator ESC `\`. -/
def ansiRunF : Nat → AnsiMode → List Nat → List Nat
  | _, _, [] => []
  | 0, _, _ :: _ => []
  | fuel + 1, AnsiMode.main, b :: rest =>
    if b = 27 then
      match rest with
      | [] => []
      | c :: rest2 =>
        if c = 91 then ansiRunF fuel AnsiMode.csi rest2
        else if c = 93 then ansiRunF fuel AnsiMode.osc rest2
        else ansiRunF fuel AnsiMode.main rest2
    else b :: ansiRunF fuel AnsiMode.main rest
  | fuel + 1, AnsiMode.csi, b :: rest =>
    if 64 ≤ b ∧ b ≤ 126 then ansiRunF fuel AnsiMode.main rest
    else ansiRunF fuel AnsiMode.csi rest
  | fuel + 1, AnsiMode.osc, b :: rest =>
    if b = 7 then ansiRunF fuel AnsiMode.main rest
    else if b = 27 then
      match rest with
      | c :: rest2 =>
        if c = 92 then ansiRunF fuel AnsiMode.main rest2
        else ansiRunF fuel AnsiMode.osc (c :: rest2)
      | [] => []
    else ansiRunF fuel AnsiMode.osc rest

theorem ansiRunF_congr : ∀ (f1 f2 : Nat) (mode : AnsiMode) (l : List Nat),
    l.length ≤ f1 → l.length ≤ f2 → ansiRunF f1 mode l = ansiRunF f2 mode l := by
  intro f1
  induction f1 with
  | zero =>
    intro f2 mode l h1 _
    have : l = [] := List.eq_nil_of_length_eq_zero (Nat.le_zero.mp h1)
    subst this
    cases f2 <;> cases mode <;> simp [ansiRunF]
  | succ n ih =>
    intro f2 mode l h1 h2
    cases l with
    | nil => cases f2 <;> cases mode <;> simp [ansiRunF]
    | cons b rest =>
      cases f2 with
      | zero => simp at h2
      | succ m =>
        have hr : rest.length ≤ n := by
          simp only [List.length_cons] at h1
          omega
        have hr2 : rest.length ≤ m := by
          simp only [List.length_cons] at h2
          omega
        cases mode with
        | main =>
          by_cases hb : b = 27
          · subst hb
            cases rest with
            | nil => simp [ansiRunF]
            | cons c rest2 =>
              have h3 : rest2.length ≤ n := by
                simp only [List.length_cons] at hr
                omega
              have h4 : rest2.length ≤ m := by
                simp only [List.length_cons] at hr2
                omega
              by_cases hc : c = 91
              · subst hc
                simp only [ansiRunF, if_pos rfl]
                exact ih _ _ _ h3 h4
              · by_cases hc2 : c = 93
                · subst hc2
                  simp [ansiRunF, hc]
                  exact ih _ _ _ h3 h4
                · simp [ansiRunF, hc, hc2]
                  exact ih _ _ _ h3 h4
          · simp [ansiRunF, hb]
            exact ih _ _ _ hr hr2
        | csi =>
          by_cases hb : 64 ≤ b ∧ b ≤ 126
          · simp [ansiRunF, hb]
            exact ih _ _ _ hr hr2
          · simp [ansiRunF, hb]
            exact ih _ _ _ hr hr2
        | osc =>
          by_cases hb : b = 7
          · subst hb
            simp [ansiRunF]
            exact ih _ _ _ hr hr2
          · by_cases hb2 : b = 27
            · subst hb2
              cases rest with
              | nil => simp [ansiRunF, hb]
              | cons c rest2 =>
                have h3 : rest2.length ≤ n := by
                  simp only [List.length_cons] at hr
                  omega
                have h4 : rest2.length ≤ m := by
                  simp only [List.length_cons] at hr2
                  omega
                by_cases hc : c = 92
                · subst hc
                  simp [ansiRunF, hb]
                  exact ih _ _ _ h3 h4
                · simp [ansiRunF, hb, hc]
                  exact ih _ _ _ hr hr2
            · simp [ansiRunF, hb, hb2]
              exact ih _ _ _ hr hr2

/-- The main copy loop of the byte walk. -/
def ansiMain (l : List Nat) : List Nat := ansiRunF l.length AnsiMode.main l

/-- The CSI-skipping state of the byte walk. -/
def ansiCsi (l : List Nat) : List Nat := ansiRunF l.length AnsiMode.csi l

/-- The OSC-skipping state of the byte walk. -/
def ansiOsc (l : List Nat) : List Nat := ansiRunF l.length AnsiMode.osc l

theorem ansiMain_nil : ansiMain [] = [] := rfl

theorem ansiCsi_nil : ansiCsi [] = [] := rfl

theorem ansiOsc_nil : ansiOsc [] = [] := rfl

theorem ansiMain_cons (b : Nat) (rest : List Nat) :
    ansiMain (b :: rest) =
      if b = 27 then
        match rest with
        | [] => []
        | c :: rest2 =>
          if c = 91 then ansiCsi rest2
          else if c = 93 then ansiOsc rest2
          else ansiMain rest2
      else b :: ansiMain rest := by
  unfold ansiMain ansiCsi ansiOsc
  by_cases hb : b = 27
  · subst hb
    cases rest with
    | nil => simp [ansiRunF]
    | cons c rest2 =>
      have h1 : rest2.length ≤ rest2.length + 1 := Nat.le_succ _
      by_cases hc : c = 91
      · subst hc
        simp only [List.length_cons, ansiRunF, if_pos rfl]
        exact ansiRunF_congr _ _ _ _ h1 le_rfl
      · by_cases hc2 : c = 93
        · subst hc2
          simp [ansiRunF, hc]
          exact ansiRunF_congr _ _ _ _ h1 le_rfl
        · simp [ansiRunF, hc, hc2]
          exact ansiRunF_congr _ _ _ _ h1 le_rfl
  · simp [ansiRunF, hb]

theorem ansiCsi_cons (b : Nat) (rest : List Nat) :
    ansiCsi (b :: rest) =
      if 64 ≤ b ∧ b ≤ 126 then ansiMain rest else ansiCsi rest := by
  unfold ansiMain ansiCsi
  simp only [List.length_cons, ansiRunF]

theorem ansiOsc_cons (b : Nat) (rest : List Nat) :
    ansiOsc (b :: rest) =
      if b = 7 then ansiMain rest
      else if b = 27 then
        match rest with
        | c :: rest2 => if c = 92 then ansiMain rest2 else ansiOsc (c :: rest2)
        | [] => []
      else ansiOsc rest := by
  unfold ansiMain ansiOsc
  by_cases hb : b = 7
  · subst hb
    simp [ansiRunF]
  · by_cases hb2 : b = 27
    · subst hb2
      cases rest with
      | nil => simp [ansiRunF, hb]
      | cons c rest2 =>
        by_cases hc : c = 92
        · subst hc
          simp [ansiRunF, hb]
          exact ansiRunF_congr _ _ _ _ (Nat.le_succ _) le_rfl
        · simp [ansiRunF, hb, hc]
    · simp [ansiRunF, hb, hb2]

/-!
## UTF-8 lossy re-validation (`String::from_utf8_lossy`)

`utf8SeqLen l` is the length of the well-formed UTF-8 sequence at the
head of `l` (if any); `utf8ErrLen` is the length of the maximal subpart
consumed for one replacement character when the head is ill-formed
(the WHATWG substitution policy implemented by the Rust standard
library).
-/

/-- UTF-8 continuation byte test. -/
def isCont (b : Nat) : Bool := 128 ≤ b && b ≤ 191

/-- Expected sequence length determined by a lead byte (0 = invalid lead). -/
def leadLen (b : Nat) : Nat :=
  if b ≤ 127 then 1
  else if 194 ≤ b ∧ b ≤ 223 then 2
  else if 224 ≤ b ∧ b ≤ 239 then 3
  else if 240 ≤ b ∧ b ≤ 244 then 4
  else 0

/-- Lower bound for the first continuation byte of a multi-byte lead. -/
def c1lo (b : Nat) : Nat := if b = 224 then 160 else if b = 240 then 144 else 128

/-- Upper bound for the first continuation byte of a multi-byte lead. -/
def c1hi (b : Nat) : Nat := if b = 237 then 159 else if b = 244 then 143 else 191

/-- First continuation byte check. -/
def c1ok (b c : Nat) : Bool := c1lo b ≤ c && c ≤ c1hi b

/-- Length of the well-formed UTF-8 sequence at the head, if any. -/
def utf8SeqLen : List Nat → Option Nat
  | [] => none
  | b :: rest =>
    match leadLen b with
    | 1 => some 1
    | 2 =>
      match rest with
      | c1 :: _ => if c1ok b c1 then some 2 else none
      | [] => none
    | 3 =>
      match rest with
      | c1 :: c2 :: _ => if c1ok b c1 && isCont c2 then some 3 else none
      | _ => none
    | 4 =>
      match rest with
      | c1 :: c2 :: c3 :: _ => if c1ok b c1 && isCont c2 && isCont c3 then some 4 else none
      | _ => none
    | _ => none

/-- Maximal-subpart length consumed for one replacement character. -/
def utf8ErrLen : List Nat → Nat
  | [] => 1
  | b :: rest =>
    match leadLen b with
    | 3 =>
      match rest with
      | c1 :: _ => if c1ok b c1 then 2 else 1
      | [] => 1
    | 4 =>
      match rest with
      | c1 :: c2 :: _ => if c1ok b c1 then (if isCont c2 then 3 else 2) else 1
      | [c1] => if c1ok b c1 then 2 else 1
      | [] => 1
    | _ => 1

/-- UTF-8 bytes of U+FFFD, the replacement character. -/
def replacementBytes : List Nat := [239, 191, 189]

theorem utf8SeqLen_pos {l : List Nat} {k : Nat} (h : utf8SeqLen l = some k) : 1 ≤ k := by
  unfold utf8SeqLen at h
  repeat' split at h
  all_goals simp_all
  all_goals omega

theorem utf8ErrLen_pos (l : List Nat) : 1 ≤ utf8ErrLen l := by
  unfold utf8ErrLen
  repeat' split
  all_goals omega

/-- Fuelled recursion for the lossy UTF-8 re-validation; the fuel only
bounds the recursion depth and any fuel at least the list length gives
the same result (`utf8RepairF_congr`). -/
def utf8RepairF : Nat → List Nat → List Nat
  | _, [] => []
  | 0, _ :: _ => []
  | fuel + 1, a :: rest =>
    match utf8SeqLen (a :: rest) with
    | some k => (a :: rest).take k ++ utf8RepairF fuel ((a :: rest).drop k)
    | none =>
      replacementBytes ++ utf8RepairF fuel ((a :: rest).drop (utf8ErrLen (a :: rest)))

/-- Lossy UTF-8 re-validation: well-formed sequences are kept, maximal
ill-formed subparts are replaced by U+FFFD. -/
def utf8Repair (l : List Nat) : List Nat := utf8RepairF l.length l

theorem utf8RepairF_congr : ∀ (f1 f2 : Nat) (l : List Nat),
    l.length ≤ f1 → l.length ≤ f2 → utf8RepairF f1 l = utf8RepairF f2 l := by
  intro f1
  induction f1 with
  | zero =>
    intro f2 l h1 _
    have : l = [] := List.eq_nil_of_length_eq_zero (Nat.le_zero.mp h1)
    subst this
    cases f2 <;> simp [utf8RepairF]
  | succ n ih =>
    intro f2 l h1 h2
    cases l with
    | nil => cases f2 <;> simp [utf8RepairF]
    | cons a rest =>
      cases f2 with
      | zero => simp at h2
      | succ m =>
        simp only [utf8RepairF]
        cases hseq : utf8SeqLen (a :: rest) with
        | some k =>
          dsimp only
          have hpos := utf8SeqLen_pos hseq
          have hd : ((a :: rest).drop k).length ≤ n := by
            rw [List.length_drop]
            simp only [List.length_cons] at h1 ⊢
            omega
          have hd2 : ((a :: rest).drop k).length ≤ m := by
            rw [List.length_drop]
            simp only [List.length_cons] at h2 ⊢
            omega
          rw [ih _ _ hd hd2]
        | none =>
          dsimp only
          have hpos := utf8ErrLen_pos (a :: rest)
          have hd : ((a :: rest).drop (utf8ErrLen (a :: rest))).length ≤ n := by
            rw [List.length_drop]
            simp only [List.length_cons] at h1 ⊢
            omega
          have hd2 : ((a :: rest).drop (utf8ErrLen (a :: rest))).length ≤ m := by
            rw [List.length_drop]
            simp only [List.length_cons] at h2 ⊢
            omega
          rw [ih _ _ hd hd2]

/-- The full `strip_ansi`: the byte walk followed by the lossy UTF-8
re-validation. -/
def stripAnsi (l : List Nat) : List Nat := utf8Repair (ansiMain l)

/-- No state of the ANSI walk ever copies an ESC byte to the output. -/
theorem ansi_no_esc (n : Nat) : ∀ l : List Nat, l.length ≤ n →
    27 ∉ ansiMain l ∧ 27 ∉ ansiCsi l ∧ 27 ∉ ansiOsc l := by
  induction n with
  | zero =>
    intro l hl
    have : l = [] := List.eq_nil_of_length_eq_zero (Nat.le_zero.mp hl)
    subst this
    simp [ansiMain_nil, ansiCsi_nil, ansiOsc_nil]
  | succ n ih =>
    intro l hl
    cases l with
    | nil => simp [ansiMain_nil, ansiCsi_nil, ansiOsc_nil]
    | cons b rest =>
      have hrest : rest.length ≤ n := by
        simp only [List.length_cons] at hl
        omega
      refine ⟨?_, ?_, ?_⟩
      · rw [ansiMain_cons]
        by_cases hb : b = 27
        · subst hb
          cases rest with
          | nil => simp
          | cons c rest2 =>
            have h2 : rest2.length ≤ n := by
              simp only [List.length_cons] at hrest
              omega
            by_cases hc : c = 91
            · simpa [hc] using (ih rest2 h2).2.1
            · by_cases hc2 : c = 93
              · simpa [hc, hc2] using (ih rest2 h2).2.2
              · simpa [hc, hc2] using (ih rest2 h2).1
        · simp only [if_neg hb, List.mem_cons, not_or]
          exact ⟨fun he => hb he.symm, (ih rest hrest).1⟩
      · rw [ansiCsi_cons]
        by_cases hb : 64 ≤ b ∧ b ≤ 126
        · simpa [hb] using (ih rest hrest).1
        · simpa [hb] using (ih rest hrest).2.1
      · rw [ansiOsc_cons]
        by_cases hb : b = 7
        · subst hb
          simpa using (ih rest hrest).1
        · by_cases hb2 : b = 27
          · subst hb2
            cases rest with
            | nil => simp [hb]
            | cons c rest2 =>
              have h2 : rest2.length ≤ n := by
                simp only [List.length_cons] at hrest
                omega
              by_cases hc : c = 92
              · simpa [hb, hc] using (ih rest2 h2).1
              · simpa [hb, hc] using (ih (c :: rest2) hrest).2.2
          · simpa [hb, hb2] using (ih rest hrest).2.2

/-- On ESC-free input the main walk is the identity. -/
theorem ansiMain_id : ∀ l : List Nat, 27 ∉ l → ansiMain l = l := by
  intro l
  induction l with
  | nil => intro _; simp [ansiMain_nil]
  | cons b rest ih =>
    intro h
    have hb : b ≠ 27 := fun hb => h (hb ▸ List.mem_cons_self b rest)
    have hr : 27 ∉ rest := fun hr => h (List.mem_cons_of_mem b hr)
    rw [ansiMain_cons, if_neg hb, ih hr]

/-- A recognised head sequence is determined by its own bytes: replacing
everything after it leaves the recognised length unchanged. -/
theorem utf8SeqLen_take_append {l : List Nat} {k : Nat} (h : utf8SeqLen l = some k) :
    k ≤ l.length ∧ ∀ m : List Nat, utf8SeqLen (l.take k ++ m) = some k := by
  cases l with
  | nil => simp [utf8SeqLen] at h
  | cons b rest =>
    unfold utf8SeqLen at h
    repeat' split at h
    all_goals first
      | (simp only [Option.some.injEq] at h
         subst h)
      | simp at h
    all_goals simp_all [utf8SeqLen]

/-- The replacement character is itself a recognised 3-byte sequence. -/
theorem utf8SeqLen_replacement (m : List Nat) :
    utf8SeqLen (replacementBytes ++ m) = some 3 := by
  simp [replacementBytes, utf8SeqLen, leadLen, c1ok, c1lo, c1hi, isCont]

/-- Unfolding lemma for `utf8Repair` at a recognised head sequence. -/
theorem utf8Repair_cons_seq {l : List Nat} {k : Nat} (h : utf8SeqLen l = some k) :
    utf8Repair l = l.take k ++ utf8Repair (l.drop k) := by
  cases l with
  | nil => simp [utf8SeqLen] at h
  | cons a rest =>
    have hpos := utf8SeqLen_pos h
    unfold utf8Repair
    conv_lhs => rw [List.length_cons, utf8RepairF, h]
    dsimp only
    congr 1
    refine utf8RepairF_congr _ _ _ ?_ le_rfl
    rw [List.length_drop]
    simp only [List.length_cons]
    omega

/-- Unfolding lemma for `utf8Repair` at an unrecognised nonempty head. -/
theorem utf8Repair_cons_err {a : Nat} {rest : List Nat}
    (h : utf8SeqLen (a :: rest) = none) :
    utf8Repair (a :: rest) =
      replacementBytes ++ utf8Repair ((a :: rest).drop (utf8ErrLen (a :: rest))) := by
  have hpos := utf8ErrLen_pos (a :: rest)
  unfold utf8Repair
  conv_lhs => rw [List.length_cons, utf8RepairF, h]
  dsimp only
  congr 1
  refine utf8RepairF_congr _ _ _ ?_ le_rfl
  rw [List.length_drop]
  simp only [List.length_cons]
  omega

/-- Lossy repair never introduces an ESC byte. -/
theorem utf8Repair_no_esc (n : Nat) : ∀ l : List Nat, l.length ≤ n → 27 ∉ l →
    27 ∉ utf8Repair l := by
  induction n with
  | zero =>
    intro l hl _
    have : l = [] := List.eq_nil_of_length_eq_zero (Nat.le_zero.mp hl)
    subst this
    simp [utf8Repair, utf8RepairF]
  | succ n ih =>
    intro l hl hesc
    cases l with
    | nil => simp [utf8Repair, utf8RepairF]
    | cons a rest =>
      cases hseq : utf8SeqLen (a :: rest) with
      | some k =>
        rw [utf8Repair_cons_seq hseq]
        have h1 := utf8SeqLen_pos hseq
        intro hmem
        rcases List.mem_append.mp hmem with hm | hm
        · exact hesc (List.take_subset k _ hm)
        · refine ih _ ?_ (fun hd => hesc (List.drop_subset k _ hd)) hm
          simp only [List.length_drop, List.length_cons] at *
          omega
      | none =>
        rw [utf8Repair_cons_err hseq]
        have h1 := utf8ErrLen_pos (a :: rest)
        intro hmem
        rcases List.mem_append.mp hmem with hm | hm
        · simp [replacementBytes] at hm
        · refine ih _ ?_ (fun hd => hesc (List.drop_subset _ _ hd)) hm
          simp only [List.length_drop, List.length_cons] at *
          omega

/-- Lossy repair is idempotent. -/
theorem utf8Repair_idem (n : Nat) : ∀ l : List Nat, l.length ≤ n →
    utf8Repair (utf8Repair l) = utf8Repair l := by
  induction n with
  | zero =>
    intro l hl
    have : l = [] := List.eq_nil_of_length_eq_zero (Nat.le_zero.mp hl)
    subst this
    simp [utf8Repair, utf8RepairF]
  | succ n ih =>
    intro l hl
    cases l with
    | nil => simp [utf8Repair, utf8RepairF]
    | cons a rest =>
      cases hseq : utf8SeqLen (a :: rest) with
      | some k =>
        obtain ⟨hkle, hdet⟩ := utf8SeqLen_take_append hseq
        have hpos := utf8SeqLen_pos hseq
        have hlen : ((a :: rest).take k).length = k := by
          rw [List.length_take]
          exact Nat.min_eq_left hkle
        have hdrop : ((a :: rest).drop k).length ≤ n := by
          rw [List.length_drop]
          simp only [List.length_cons] at hl ⊢
          omega
        rw [utf8Repair_cons_seq hseq,
          utf8Repair_cons_seq (hdet (utf8Repair ((a :: rest).drop k))),
          List.take_left' hlen, List.drop_left' hlen, ih _ hdrop]
      | none =>
        have herr := utf8ErrLen_pos (a :: rest)
        have hdrop : ((a :: rest).drop (utf8ErrLen (a :: rest))).length ≤ n := by
          rw [List.length_drop]
          simp only [List.length_cons] at hl ⊢
          omega
        have hrlen : replacementBytes.length = 3 := by simp [replacementBytes]
        rw [utf8Repair_cons_err hseq,
          utf8Repair_cons_seq (utf8SeqLen_replacement
            (utf8Repair ((a :: rest).drop (utf8ErrLen (a :: rest))))),
          List.take_left' hrlen, List.drop_left' hrlen, ih _ hdrop]

/-- The byte walk of `strip_ansi` followed by lossy repair never yields
an ESC byte. -/
theorem stripAnsi_no_esc (l : List Nat) : 27 ∉ stripAnsi l := by
  unfold stripAnsi
  exact utf8Repair_no_esc (ansiMain l).length _ le_rfl
    (ansi_no_esc l.length l le_rfl).1

/-- `strip_ansi` is idempotent. -/
theorem stripAnsi_idem (l : List Nat) : stripAnsi (stripAnsi l) = stripAnsi l := by
  unfold stripAnsi
  rw [ansiMain_id _ (utf8Repair_no_esc (ansiMain l).length _ le_rfl
    (ansi_no_esc l.length l le_rfl).1)]
  exact utf8Repair_idem (ansiMain l).length (ansiMain l) le_rfl

/-!
## Evidence parsing (crates/ralph-core/src/event_parser.rs)

The numeric evidence values are `f64` in the sources; they are modelled
as exact rationals.  Every literal the sources compare against (80, 70,
10) is exactly representable, and the parsed decimals are modelled by
their exact decimal value.
-/

/-- ASCII digit test. -/
def isDigitB (b : Nat) : Bool := 48 ≤ b && b ≤ 57

/-- Value of a list of ASCII digit bytes. -/
def natOfDigits (l : List Nat) : Nat := l.foldl (fun acc b => acc * 10 + (b - 48)) 0

/-- `str::parse::<f64>` on a scanned digits-and-dots substring: valid iff
it holds at least one digit and at most one dot; the value is the exact
decimal value `intPart.fracPart` (built with `mkRat` so that it reduces
computationally). -/
def parseNumQ (s : List Nat) : Option ℚ :=
  if s.count 46 ≤ 1 ∧ s.any isDigitB then
    let intPart := s.takeWhile (fun b => b ≠ 46)
    let fracPart := (s.dropWhile (fun b => b ≠ 46)).drop 1
    some (mkRat (natOfDigits intPart * 10 ^ fracPart.length + natOfDigits fracPart)
      (10 ^ fracPart.length))
  else none

/-- `EventParser::extract_first_number`: the first digit starts the scan,
which extends over digits and dots and stops at any other byte. -/
def extract_first_number (seg : List Nat) : Option ℚ :=
  let s := (seg.dropWhile (fun b => !isDigitB b)).takeWhile (fun b => isDigitB b || b = 46)
  if s.isEmpty then none else parseNumQ s

/-- `EventParser::extract_percentage`: walk back from the first `%` over
digits and dots and parse the passed-over substring. -/
def extract_percentage (seg : List Nat) : Option ℚ :=
  let pre := seg.takeWhile (fun b => b ≠ 37)
  if pre.length = seg.length then none
  else
    let digits := (pre.reverse.takeWhile (fun b => isDigitB b || b = 46)).reverse
    if digits.isEmpty then none else parseNumQ digits

/-- The comma/newline segments of a payload, trimmed (Rust
`split(|c| c == newline || c == comma).map(str::trim)`). -/
def segsOf (clean : List Nat) : List (List Nat) := (splitSegs clean).map trimB

/-- `MutationStatus` (event_parser.rs). -/
inductive MutationStatus where
  | Pass
  | Warn
  | Fail
  | Unknown
deriving DecidableEq, Repr

/-- `MutationEvidence` (event_parser.rs). -/
structure MutationEvidence where
  status : MutationStatus
  score_percent : Option ℚ
deriving DecidableEq, Repr

/-- `BackpressureEvidence` (event_parser.rs). -/
structure BackpressureEvidence where
  tests_passed : Bool
  lint_passed : Bool
  typecheck_passed : Bool
  audit_passed : Bool
  coverage_passed : Bool
  complexity_score : Option ℚ
  duplication_passed : Bool
  performance_regression : Option Bool
  mutants : Option MutationEvidence
  specs_verified : Option Bool
deriving DecidableEq, Repr

/-- `QualityReport::COMPLEXITY_THRESHOLD`. -/
def COMPLEXITY_THRESHOLD : ℚ := 10

/-- `QualityReport::COVERAGE_THRESHOLD`. -/
def COVERAGE_THRESHOLD : ℚ := 80

/-- `QualityReport::MUTATION_THRESHOLD`. -/
def MUTATION_THRESHOLD : ℚ := 70

/-- `BackpressureEvidence::all_passed` (event_parser.rs, lines 94 – 107). -/
def BackpressureEvidence.all_passed (e : BackpressureEvidence) : Bool :=
  e.tests_passed && e.lint_passed && e.typecheck_passed && e.audit_passed
    && e.coverage_passed
    && (match e.complexity_score with
        | some v => decide (v ≤ COMPLEXITY_THRESHOLD)
        | none => false)
    && e.duplication_passed
    && !(e.performance_regression == some true)
    && !(e.specs_verified == some false)

/-- `EventParser::parse_mutation_evidence`. -/
def parse_mutation_evidence (clean : List Nat) : Option MutationEvidence :=
  match (segsOf clean).find? (fun seg => bytesContain seg (strB ("mutants:"))) with
  | none => none
  | some seg =>
    let normalized := lowerB seg
    let status :=
      if bytesContain normalized (strB ("mutants: pass")) then MutationStatus.Pass
      else if bytesContain normalized (strB ("mutants: warn")) then MutationStatus.Warn
      else if bytesContain normalized (strB ("mutants: fail")) then MutationStatus.Fail
      else MutationStatus.Unknown
    some ⟨status, extract_percentage seg⟩

/-- `EventParser::parse_complexity_evidence`. -/
def parse_complexity_evidence (clean : List Nat) : Option ℚ :=
  match (segsOf clean).find? (fun seg => (strB ("complexity:")).isPrefixOf (lowerB seg)) with
  | none => none
  | some seg => extract_first_number seg

/-- `EventParser::parse_duplication_evidence`. -/
def parse_duplication_evidence (clean : List Nat) : Option Bool :=
  match (segsOf clean).find? (fun seg => (strB ("duplication:")).isPrefixOf (lowerB seg)) with
  | none => none
  | some seg =>
    let normalized := lowerB seg
    if bytesContain normalized (strB ("duplication: pass")) then some true
    else if bytesContain normalized (strB ("duplication: fail")) then some false
    else none

/-- `EventParser::parse_performance_regression`. -/
def parse_performance_regression (clean : List Nat) : Option Bool :=
  match (segsOf clean).find? (fun seg =>
      (strB ("performance:")).isPrefixOf (lowerB seg)
        || (strB ("perf:")).isPrefixOf (lowerB seg)) with
  | none => none
  | some seg =>
    let normalized := lowerB seg
    if bytesContain normalized (strB ("regression")) || bytesContain normalized (strB ("fail")) then
      some true
    else if bytesContain normalized (strB ("pass")) || bytesContain normalized (strB ("ok"))
        || bytesContain normalized (strB ("improved")) then
      some false
    else none

/-- `EventParser::parse_specs_evidence`. -/
def parse_specs_evidence (clean : List Nat) : Option Bool :=
  match (segsOf clean).find? (fun seg => (strB ("specs:")).isPrefixOf (lowerB seg)) with
  | none => none
  | some seg =>
    let normalized := lowerB seg
    if bytesContain normalized (strB ("specs: pass")) then some true
    else if bytesContain normalized (strB ("specs: fail")) then some false
    else none

/-- `EventParser::parse_backpressure_evidence` (event_parser.rs,
lines 322 – 365): strips ANSI escapes, scans for the known keys, and
returns evidence only when at least one key is mentioned. -/
def parse_backpressure_evidence (payload : List Nat) : Option BackpressureEvidence :=
  let clean := stripAnsi payload
  if bytesContain clean (strB ("tests:")) || bytesContain clean (strB ("lint:"))
      || bytesContain clean (strB ("typecheck:")) || bytesContain clean (strB ("audit:"))
      || bytesContain clean (strB ("coverage:")) || bytesContain clean (strB ("complexity:"))
      || bytesContain clean (strB ("duplication:")) || bytesContain clean (strB ("performance:"))
      || bytesContain clean (strB ("perf:")) || bytesContain clean (strB ("mutants:"))
      || bytesContain clean (strB ("specs:")) then
    some
      { tests_passed := bytesContain clean (strB ("tests: pass"))
        lint_passed := bytesContain clean (strB ("lint: pass"))
        typecheck_passed := bytesContain clean (strB ("typecheck: pass"))
        audit_passed := bytesContain clean (strB ("audit: pass"))
        coverage_passed := bytesContain clean (strB ("coverage: pass"))
        complexity_score := parse_complexity_evidence clean
        duplication_passed := (parse_duplication_evidence clean).getD false
        performance_regression := parse_performance_regression clean
        mutants := parse_mutation_evidence clean
        specs_verified := parse_specs_evidence clean }
  else none

/-- `ReviewEvidence` (event_parser.rs). -/
structure ReviewEvidence where
  tests_passed : Bool
  build_passed : Bool
deriving DecidableEq, Repr

/-- `ReviewEvidence::is_verified`. -/
def ReviewEvidence.is_verified (e : ReviewEvidence) : Bool :=
  e.tests_passed && e.build_passed

/-- `EventParser::parse_review_evidence`. -/
def parse_review_evidence (payload : List Nat) : Option ReviewEvidence :=
  let clean := stripAnsi payload
  if bytesContain clean (strB ("tests:")) || bytesContain clean (strB ("build:")) then
    some
      { tests_passed := bytesContain clean (strB ("tests: pass"))
        build_passed := bytesContain clean (strB ("build: pass")) }
  else none

/-- `QualityReport` (event_parser.rs). -/
structure QualityReport where
  tests_passed : Option Bool
  lint_passed : Option Bool
  audit_passed : Option Bool
  coverage_percent : Option ℚ
  mutation_percent : Option ℚ
  complexity_score : Option ℚ
  specs_verified : Option Bool
deriving DecidableEq, Repr

/-- `QualityReport::meets_thresholds` (event_parser.rs, lines 165 – 179). -/
def QualityReport.meets_thresholds (r : QualityReport) : Bool :=
  r.tests_passed == some true && r.lint_passed == some true && r.audit_passed == some true
    && (match r.coverage_percent with
        | some v => decide (COVERAGE_THRESHOLD ≤ v)
        | none => false)
    && (match r.mutation_percent with
        | some v => decide (MUTATION_THRESHOLD ≤ v)
        | none => false)
    && (match r.complexity_score with
        | some v => decide (v ≤ COMPLEXITY_THRESHOLD)
        | none => false)
    && !(r.specs_verified == some false)

/-- `QualityReport::failed_dimensions` (event_parser.rs, lines 181 – 216). -/
def QualityReport.failed_dimensions (r : QualityReport) : List (List Nat) :=
  (if !(r.tests_passed == some true) then [strB ("tests")] else [])
    ++ (if !(r.lint_passed == some true) then [strB ("lint")] else [])
    ++ (if !(r.audit_passed == some true) then [strB ("audit")] else [])
    ++ (if (match r.coverage_percent with
            | some v => decide (v < COVERAGE_THRESHOLD)
            | none => true) then [strB ("coverage")] else [])
    ++ (if (match r.mutation_percent with
            | some v => decide (v < MUTATION_THRESHOLD)
            | none => true) then [strB ("mutation")] else [])
    ++ (if (match r.complexity_score with
            | some v => decide (COMPLEXITY_THRESHOLD < v)
            | none => true) then [strB ("complexity")] else [])
    ++ (if r.specs_verified == some false then [strB ("specs")] else [])

/-- `EventParser::parse_quality_pass_fail`. -/
def parse_quality_pass_fail (seg : List Nat) : Option Bool :=
  if bytesContain seg (strB ("pass")) then some true
  else if bytesContain seg (strB ("fail")) then some false
  else none

/-- One step of the `parse_quality_report` segment loop. -/
def qualityStep (acc : QualityReport × Bool) (seg : List Nat) : QualityReport × Bool :=
  if seg.isEmpty then acc
  else
    let normalized := lowerB seg
    if (strB ("quality.tests:")).isPrefixOf normalized then
      ({ acc.1 with tests_passed := parse_quality_pass_fail normalized }, true)
    else if (strB ("quality.lint:")).isPrefixOf normalized then
      ({ acc.1 with lint_passed := parse_quality_pass_fail normalized }, true)
    else if (strB ("quality.audit:")).isPrefixOf normalized then
      ({ acc.1 with audit_passed := parse_quality_pass_fail normalized }, true)
    else if (strB ("quality.coverage:")).isPrefixOf normalized then
      ({ acc.1 with coverage_percent :=
          (extract_percentage seg).orElse (fun _ => extract_first_number seg) }, true)
    else if (strB ("quality.mutation:")).isPrefixOf normalized then
      ({ acc.1 with mutation_percent :=
          (extract_percentage seg).orElse (fun _ => extract_first_number seg) }, true)
    else if (strB ("quality.complexity:")).isPrefixOf normalized then
      ({ acc.1 with complexity_score := extract_first_number seg }, true)
    else if (strB ("quality.specs:")).isPrefixOf normalized then
      ({ acc.1 with specs_verified := parse_quality_pass_fail normalized }, true)
    else acc

/-- `EventParser::parse_quality_report` (event_parser.rs, lines 553 – 602). -/
def parse_quality_report (payload : List Nat) : Option QualityReport :=
  let clean := stripAnsi payload
  let init : QualityReport :=
    { tests_passed := none, lint_passed := none, audit_passed := none
      coverage_percent := none, mutation_percent := none, complexity_score := none
      specs_verified := none }
  let res := (segsOf clean).foldl qualityStep (init, false)
  if res.2 then some res.1 else none

/-!
## Protocol types (crates/ralph-proto/src)
-/

/-- `RoutingMode` (triage.rs). -/
inductive RoutingMode where
  | Simple
  | Full
deriving DecidableEq, Repr

/-- `TriageDecision` (triage.rs); `confidence` is an `f32` modelled as `ℚ`. -/
structure TriageDecision where
  mode : RoutingMode
  reason : List Nat
  confidence : ℚ
deriving DecidableEq, Repr

/-- `SafetyTier` (tea.rs). -/
inductive SafetyTier where
  | Tier1
  | Tier2
  | Tier3
deriving DecidableEq, Repr

/-- `TestStrategy` (tea.rs); `min_coverage` is an `f32` modelled as `ℚ`. -/
structure TestStrategy where
  tier : SafetyTier
  min_coverage : ℚ
  mandatory_categories : List (List Nat)
  hard_gates : List (List Nat)
  reason : List Nat
deriving DecidableEq, Repr

/-- `OptionChoice` (options.rs). -/
structure OptionChoice where
  id : List Nat
  description : List Nat
  pros : List (List Nat)
  cons : List (List Nat)
  impact : List Nat
deriving DecidableEq, Repr

/-- `ProactiveOptions` (options.rs). -/
structure ProactiveOptions where
  question : List Nat
  options : List OptionChoice
deriving DecidableEq, Repr

/-- Modelled from the spec: the file `crates/ralph-proto/src/topic.rs`
(the `Topic` matcher) is not part of the provided sources; only its
callers are.  Spec §4.1: `matches(pattern, topic)` returns true iff the
pattern is `*`, the pattern equals the topic, or the pattern is `P.*`
and the topic starts with `P.`. -/
def topicMatches (p t : List Nat) : Bool :=
  p == [42] || p == t
    || ((strB (".*")).isSuffixOf p && (p.take (p.length - 2) ++ [46]).isPrefixOf t)

/-- Modelled from the spec (§4.1, topic.rs not in sources):
`is_global_wildcard(pattern)` is true only for `*`. -/
def isGlobalWildcard (p : List Nat) : Bool := p == [42]

/-- `Hat` (hat.rs): id, name, description, subscriptions, publishes and
instructions; topics are byte strings. -/
structure Hat where
  id : List Nat
  name : List Nat
  description : List Nat
  subscriptions : List (List Nat)
  publishes : List (List Nat)
  instructions : List Nat
deriving DecidableEq, Repr

/-- `Hat::is_subscribed` / `is_subscribed_str` (hat.rs, lines 184 – 193). -/
def Hat.is_subscribed (h : Hat) (topic : List Nat) : Bool :=
  h.subscriptions.any (fun sub => topicMatches sub topic)

/-- `Hat::has_specific_subscription` (hat.rs, lines 200 – 204). -/
def Hat.has_specific_subscription (h : Hat) (topic : List Nat) : Bool :=
  h.subscriptions.any (fun sub => !isGlobalWildcard sub && topicMatches sub topic)

/-- `Event` (event.rs). -/
structure Event where
  topic : List Nat
  payload : List Nat
  source : Option (List Nat)
  target : Option (List Nat)
  triage : Option TriageDecision
  strategy : Option TestStrategy
  options : Option ProactiveOptions
deriving DecidableEq, Repr

/-- `Event::new` (event.rs). -/
def Event.new (topic payload : List Nat) : Event :=
  { topic := topic, payload := payload, source := none, target := none
    triage := none, strategy := none, options := none }

/-!
## The event bus (crates/ralph-proto/src/event_bus.rs)

The `HashMap` fields are modelled as association lists with distinct
keys; iteration and recipient order are fixed by the list order, but
every claim concerns only membership, which is order-independent.
Observers are side channels (they receive a shared reference and cannot
alter routing) and are not modelled.  The two `serde_json::from_str`
payload parses are abstracted as function parameters `pt` / `ps` of
`publish`; all theorems hold for every choice of parser.
-/

/-- `EventBus` (event_bus.rs): hats, per-hat pending queues, the human
queue, routing mode and active strategy. -/
structure EventBus where
  hats : List (List Nat × Hat)
  pending : List (List Nat × List Event)
  human_pending : List Event
  routing_mode : Option RoutingMode
  active_strategy : Option TestStrategy
deriving DecidableEq, Repr

/-- Key membership in an association list (`HashMap::contains_key`). -/
def assocHasKey (m : List (List Nat × Hat)) (k : List Nat) : Bool :=
  m.any (fun p => p.1 == k)

/-- The pending queue of a hat (`HashMap` lookup, defaulting to empty). -/
def pendingOf (m : List (List Nat × List Event)) (k : List Nat) : List Event :=
  match m.find? (fun p => p.1 == k) with
  | some p => p.2
  | none => []

/-- `self.pending.entry(id).or_default().push(event)`. -/
def pushPending (m : List (List Nat × List Event)) (k : List Nat) (e : Event) :
    List (List Nat × List Event) :=
  if m.any (fun p => p.1 == k) then
    m.map (fun p => if p.1 == k then (p.1, p.2 ++ [e]) else p)
  else m ++ [(k, [e])]

/-- The triage routing filter inside `EventBus::publish` (event_bus.rs,
lines 153 – 169): in `Simple` mode the `planner` hat is skipped for
`task.start`; in `Full` mode the `simple-executor` hat is skipped for
`triage.decision`. -/
def routingFiltered (mode : Option RoutingMode) (id topic : List Nat) : Bool :=
  match mode with
  | some RoutingMode.Simple => id == strB ("planner") && topic == strB ("task.start")
  | some RoutingMode.Full => id == strB ("simple-executor") && topic == strB ("triage.decision")
  | none => false

/-- The single pass over registered hats in `EventBus::publish`
(event_bus.rs, lines 152 – 178), producing the specific-subscriber and
wildcard-fallback recipient lists. -/
def routePartition (mode : Option RoutingMode) (topic : List Nat) :
    List (List Nat × Hat) → List (List Nat) × List (List Nat)
  | [] => ([], [])
  | (id, hat) :: rest =>
    let acc := routePartition mode topic rest
    if routingFiltered mode id topic then acc
    else if hat.has_specific_subscription topic then (id :: acc.1, acc.2)
    else if hat.is_subscribed topic then (acc.1, id :: acc.2)
    else acc

/-- `EventBus::publish` (event_bus.rs, lines 105 – 196).  Returns the
updated bus and the recipient list.  `pt` and `ps` abstract the two
`serde_json` payload parses of the `triage.decision` / `test.strategy`
interceptions. -/
def publish (pt : List Nat → Option TriageDecision) (ps : List Nat → Option TestStrategy)
    (bus : EventBus) (e : Event) : EventBus × List (List Nat) :=
  let rm :=
    if e.topic == strB ("triage.decision") then
      match pt e.payload with
      | some d => some d.mode
      | none => bus.routing_mode
    else bus.routing_mode
  let strat :=
    if e.topic == strB ("test.strategy") then
      match ps e.payload with
      | some s => some s
      | none => bus.active_strategy
    else bus.active_strategy
  let bus1 : EventBus := { bus with routing_mode := rm, active_strategy := strat }
  if (strB ("human.")).isPrefixOf e.topic then
    ({ bus1 with human_pending := bus1.human_pending ++ [e] }, [])
  else
    match e.target with
    | some t =>
      if assocHasKey bus1.hats t then
        ({ bus1 with pending := pushPending bus1.pending t e }, [t])
      else (bus1, [])
    | none =>
      let parts := routePartition rm e.topic bus1.hats
      let chosen := if parts.1.isEmpty then parts.2 else parts.1
      (chosen.foldl (fun b id => { b with pending := pushPending b.pending id e }) bus1, chosen)

/-- `EventBus::take_pending` (event_bus.rs, lines 199 – 201). -/
def take_pending (bus : EventBus) (hat_id : List Nat) : List Event × EventBus :=
  (pendingOf bus.pending hat_id,
   { bus with pending := bus.pending.filter (fun p => !(p.1 == hat_id)) })

/-- `EventBus::take_human_pending` (event_bus.rs, lines 204 – 206). -/
def take_human_pending (bus : EventBus) : List Event × EventBus :=
  (bus.human_pending, { bus with human_pending := [] })

/-!
## Triage (crates/ralph-core/src/triage_hat.rs)
-/

/-- The `simple_keywords` list of `TriageHat::analyze`. -/
def simple_keywords : List (List Nat) :=
  [strB ("typo"), strB ("documentation"), strB ("readme"), strB ("comment"),
   strB ("rename"), strB ("format"), strB ("indent"), strB ("spelling"),
   strB ("grammar"), strB ("license"), strB ("ignore"), strB ("changelog"),
   strB ("todo")]

/-- The `full_keywords` list of `TriageHat::analyze`. -/
def full_keywords : List (List Nat) :=
  [strB ("feature"), strB ("implement"), strB ("refactor"), strB ("design"),
   strB ("architecture"), strB ("database"), strB ("api"), strB ("endpoint"),
   strB ("ui"), strB ("component"), strB ("integration"), strB ("test"),
   strB ("fix bug"), strB ("logic"), strB ("module"), strB ("system"),
   strB ("service"), strB ("rewrite"), strB ("optimize")]

/-- A quoted fragment of a message template (a single-quote byte on each
side). -/
def quoted (s : String) : List Nat := qB ++ strB s ++ qB

/-- `TriageHat::analyze` (triage_hat.rs, lines 17 – 81). -/
def TriageHat.analyze (task_description : List Nat) : TriageDecision :=
  let desc_lower := lowerB task_description
  let has_simple_kw := simple_keywords.any (fun kw => bytesContain desc_lower kw)
  let has_full_kw := full_keywords.any (fun kw => bytesContain desc_lower kw)
  let is_very_short := task_description.length < 40
  let is_very_long := 200 < task_description.length
  if has_simple_kw && !has_full_kw then
    { mode := RoutingMode.Simple
      reason := strB ("Task contains ") ++ quoted ("simple")
        ++ strB (" keywords and no complex indicators")
      confidence := 9/10 }
  else if has_full_kw || is_very_long then
    { mode := RoutingMode.Full
      reason :=
        if has_full_kw then strB ("Task contains complex keywords (e.g., feature, refactor)")
        else strB ("Task description is substantial, suggesting complexity")
      confidence := 85/100 }
  else if is_very_short then
    { mode := RoutingMode.Simple
      reason := strB ("Task description is very short and contains no complex indicators")
      confidence := 8/10 }
  else
    { mode := RoutingMode.Full
      reason := strB ("Task is ambiguous; defaulting to Full Planning Path for safety")
      confidence := 6/10 }

/-!
## Event-loop state, termination and journal validation
(crates/ralph-core/src/event_loop/mod.rs)
-/

/-- A parsed journal line.  Modelled from the spec (§6: each JSONL line
is `topic` plus an optional `payload`) and the use sites in
`process_events_from_jsonl`; the reader itself
(`event_reader.rs`) is not among the provided sources. -/
structure JournalEvent where
  topic : List Nat
  payload : Option (List Nat)
deriving DecidableEq, Repr

/-- `TerminationReason` (event_loop/mod.rs, lines 31 – 53). -/
inductive TerminationReason where
  | CompletionPromise
  | MaxIterations
  | MaxRuntime
  | MaxCost
  | ConsecutiveFailures
  | LoopThrashing
  | ValidationFailure
  | Stopped
  | Interrupted
  | RestartRequested
deriving DecidableEq, Repr

/-- `TerminationReason::exit_code` (event_loop/mod.rs, lines 63 – 77). -/
def TerminationReason.exit_code : TerminationReason → Int
  | TerminationReason.CompletionPromise => 0
  | TerminationReason.ConsecutiveFailures => 1
  | TerminationReason.LoopThrashing => 1
  | TerminationReason.ValidationFailure => 1
  | TerminationReason.Stopped => 1
  | TerminationReason.MaxIterations => 2
  | TerminationReason.MaxRuntime => 2
  | TerminationReason.MaxCost => 2
  | TerminationReason.Interrupted => 130
  | TerminationReason.RestartRequested => 3

/-- `TerminationReason::as_str` (event_loop/mod.rs, lines 83 – 96). -/
def TerminationReason.as_str : TerminationReason → List Nat
  | TerminationReason.CompletionPromise => strB ("completed")
  | TerminationReason.MaxIterations => strB ("max_iterations")
  | TerminationReason.MaxRuntime => strB ("max_runtime")
  | TerminationReason.MaxCost => strB ("max_cost")
  | TerminationReason.ConsecutiveFailures => strB ("consecutive_failures")
  | TerminationReason.LoopThrashing => strB ("loop_thrashing")
  | TerminationReason.ValidationFailure => strB ("validation_failure")
  | TerminationReason.Stopped => strB ("stopped")
  | TerminationReason.Interrupted => strB ("interrupted")
  | TerminationReason.RestartRequested => strB ("restart_requested")

/-- The event-loop configuration fields read by the modelled code.
`config.rs` is not among the provided sources; the fields and defaults
follow the spec (§6, configuration options) and the use sites.
`max_cost_usd` and the mutation threshold are `f64`, modelled as `ℚ`. -/
structure EventLoopCfg where
  completion_promise : List Nat
  max_iterations : Nat
  max_runtime_seconds : Nat
  max_cost_usd : Option ℚ
  max_consecutive_failures : Nat
  persistent : Bool
  mutation_score_warn_threshold : Option ℚ
deriving DecidableEq, Repr

/-- The loop-state fields touched by the modelled code.  Modelled from
the spec (§3, “Loop state”) and the use sites in `event_loop/mod.rs`;
`event_loop/loop_state.rs` is not among the provided sources.
`cumulative_cost` is an `f64` modelled as `ℚ`. -/
structure LoopState where
  iteration : Nat
  cumulative_cost : ℚ
  consecutive_failures : Nat
  consecutive_malformed_events : Nat
  completion_requested : Bool
  task_block_counts : List (List Nat × Nat)
  abandoned_tasks : List (List Nat)
  abandoned_task_redispatches : Nat
  consecutive_blocked : Nat
  last_blocked_hat : Option (List Nat)
  is_halted : Bool
  active_strategy : Option TestStrategy
  last_snapshot_sha : Option (List Nat)
  active_options : Option ProactiveOptions
deriving DecidableEq, Repr

/-- A fresh `LoopState::new()`: counters zero, flags false, nothing
recorded. -/
def LoopState.init : LoopState :=
  { iteration := 0, cumulative_cost := 0, consecutive_failures := 0
    consecutive_malformed_events := 0, completion_requested := false
    task_block_counts := [], abandoned_tasks := [], abandoned_task_redispatches := 0
    consecutive_blocked := 0, last_blocked_hat := none, is_halted := false
    active_strategy := none, last_snapshot_sha := none, active_options := none }

/-- `EventLoop::check_termination` (event_loop/mod.rs, lines 463 – 510).
The wall clock and the two sentinel files are explicit inputs. -/
def check_termination (cfg : EventLoopCfg) (st : LoopState) (elapsed_secs : Nat)
    (stop_requested restart_requested : Bool) : Option TerminationReason :=
  if cfg.max_iterations ≤ st.iteration then some TerminationReason.MaxIterations
  else if cfg.max_runtime_seconds ≤ elapsed_secs then some TerminationReason.MaxRuntime
  else if (match cfg.max_cost_usd with
           | some m => decide (m ≤ st.cumulative_cost)
           | none => false) then some TerminationReason.MaxCost
  else if cfg.max_consecutive_failures ≤ st.consecutive_failures then
    some TerminationReason.ConsecutiveFailures
  else if 3 ≤ st.abandoned_task_redispatches then some TerminationReason.LoopThrashing
  else if 3 ≤ st.consecutive_malformed_events then some TerminationReason.ValidationFailure
  else if stop_requested then some TerminationReason.Stopped
  else if restart_requested then some TerminationReason.RestartRequested
  else none

/-- `EventLoop::extract_task_id` (event_loop/mod.rs, lines 1667 – 1674):
first line of the payload, trimmed; `"unknown"` when there is no line. -/
def extract_task_id (payload : List Nat) : List Nat :=
  if payload.isEmpty then strB ("unknown")
  else trimB (payload.takeWhile (fun b => b ≠ 10))

/-!
## Gated-event validation (event_loop/mod.rs, lines 1880 – 2142)
-/

/-- Decimal rendering of a coverage number inside the TEA violation
message.  Abstracts Rust float `Display`; no claim depends on the
rendering of this number. -/
def fmtQ (v : ℚ) : List Nat := strB (toString v)

/-- The strategy-gate errors of the `build.done` branch (event_loop/mod.rs,
lines 1915 – 1946): a coverage error when the coverage check failed and
the strategy requires coverage, then one error per failed mandatory
category. -/
def strategyErrors (strategy : TestStrategy) (ev : BackpressureEvidence) : List (List Nat) :=
  (if ev.coverage_passed then []
   else if 0 < strategy.min_coverage then
     [strB ("Coverage check failed (Required: ") ++ fmtQ strategy.min_coverage ++ strB ("%)")]
   else [])
    ++ strategy.mandatory_categories.flatMap (fun c =>
      if c == strB ("unit") && !ev.tests_passed then [strB ("Mandatory unit tests failed")]
      else if c == strB ("lint") && !ev.lint_passed then [strB ("Mandatory linting failed")]
      else if c == strB ("security") && !ev.audit_passed then
        [strB ("Mandatory security audit failed")]
      else [])

/-- The fixed `build.blocked` payload for failing evidence. -/
def blockedMsgEvidence : List Nat :=
  strB ("Backpressure checks failed. Fix tests/lint/typecheck/audit/coverage/complexity/duplication/specs before emitting build.done.")

/-- The fixed `build.blocked` payload for missing evidence. -/
def blockedMsgMissing : List Nat :=
  strB ("Missing backpressure evidence. Include ") ++ quoted ("tests: pass") ++ strB (", ")
    ++ quoted ("lint: pass") ++ strB (", ") ++ quoted ("typecheck: pass") ++ strB (", ")
    ++ quoted ("audit: pass") ++ strB (", ") ++ quoted ("coverage: pass") ++ strB (", ")
    ++ quoted ("complexity: <score>") ++ strB (", ") ++ quoted ("duplication: pass")
    ++ strB (", ") ++ quoted ("performance: pass") ++ strB (" (optional), ")
    ++ quoted ("specs: pass") ++ strB (" (optional) in build.done payload.")

/-- The fixed `review.blocked` payload for failing review evidence. -/
def reviewMsgFailed : List Nat :=
  strB ("Review verification failed. Run tests and build before emitting review.done.")

/-- The fixed `review.blocked` payload for missing review evidence. -/
def reviewMsgMissing : List Nat :=
  strB ("Missing verification evidence. Include ") ++ quoted ("tests: pass") ++ strB (" and ")
    ++ quoted ("build: pass") ++ strB (" in review.done payload.")

/-- The fixed `verify.failed` payload for failing thresholds. -/
def verifyMsgFailed : List Nat :=
  strB ("Quality thresholds failed. Include quality.tests, quality.coverage, quality.lint, quality.audit, quality.mutation, quality.complexity with thresholds in verify.passed payload.")

/-- The fixed `verify.failed` payload for a missing quality report. -/
def verifyMsgMissing : List Nat :=
  strB ("Missing quality report. Include quality.tests, quality.coverage, quality.lint, quality.audit, quality.mutation, quality.complexity in verify.passed payload.")

/-- What validating a single non-completion journal event produces: the
event pushed onto `validated_events`, whether `is_halted` was set, and
the `(task_id, reason)` recorded to the recovery queue, if any. -/
structure ValidatedOutcome where
  out : Event
  halted : Bool
  recovery : Option (List Nat × List Nat)
deriving DecidableEq, Repr

/-- The per-event validation of `process_events_from_jsonl`
(event_loop/mod.rs, lines 1911 – 2141), for an event whose topic is not
the completion topic: `build.done`, `review.done` and `verify.passed`
are checked against their evidence and rewritten on failure; every
other topic passes through unchanged. -/
def validateEvent (strat : Option TestStrategy) (topic payload : List Nat) :
    ValidatedOutcome :=
  if topic == strB ("build.done") then
    match parse_backpressure_evidence payload with
    | some ev =>
      let errs :=
        match strat with
        | some strategy => strategyErrors strategy ev
        | none => []
      if ev.all_passed && errs.isEmpty then
        ⟨Event.new topic payload, false, none⟩
      else
        let error_msg :=
          if !errs.isEmpty then
            strB ("TEA Strategy Gate Violation: ") ++ List.intercalate (strB (", ")) errs
          else blockedMsgEvidence
        ⟨Event.new (strB ("build.blocked")) error_msg, true,
          some (extract_task_id payload, error_msg)⟩
    | none =>
      ⟨Event.new (strB ("build.blocked")) blockedMsgMissing, true,
        some (strB ("unknown"), blockedMsgMissing)⟩
  else if topic == strB ("review.done") then
    match parse_review_evidence payload with
    | some ev =>
      if ev.is_verified then ⟨Event.new topic payload, false, none⟩
      else ⟨Event.new (strB ("review.blocked")) reviewMsgFailed, false, none⟩
    | none => ⟨Event.new (strB ("review.blocked")) reviewMsgMissing, false, none⟩
  else if topic == strB ("verify.passed") then
    match parse_quality_report payload with
    | some report =>
      if report.meets_thresholds then ⟨Event.new topic payload, false, none⟩
      else ⟨Event.new (strB ("verify.failed")) verifyMsgFailed, false, none⟩
    | none => ⟨Event.new (strB ("verify.failed")) verifyMsgMissing, false, none⟩
  else ⟨Event.new topic payload, false, none⟩

/-- The indexed validation loop of `process_events_from_jsonl`
(event_loop/mod.rs, lines 1883 – 2142): an event on the completion topic
is dropped, and requests completion only when its index is the last of
the batch; every other event is validated by `validateEvent`.  Returns
the outcomes in order and whether completion was requested. -/
def validateLoop (completion : List Nat) (strat : Option TestStrategy) (total : Nat) :
    Nat → List JournalEvent → List ValidatedOutcome × Bool
  | _, [] => ([], false)
  | i, ev :: rest =>
    let acc := validateLoop completion strat total (i + 1) rest
    if ev.topic == completion then (acc.1, (i + 1 == total) || acc.2)
    else (validateEvent strat ev.topic (ev.payload.getD []) :: acc.1, acc.2)

/-!
## Thrashing detection (event_loop/mod.rs, lines 2144 – 2206)
-/

/-- The per-task block count (`task_block_counts` lookup, default 0). -/
def countOf (m : List (List Nat × Nat)) (k : List Nat) : Nat :=
  match m.find? (fun p => p.1 == k) with
  | some p => p.2
  | none => 0

/-- `*self.state.task_block_counts.entry(task_id).or_insert(0) += 1`. -/
def bumpCount (m : List (List Nat × Nat)) (k : List Nat) : List (List Nat × Nat) :=
  if m.any (fun p => p.1 == k) then
    m.map (fun p => if p.1 == k then (p.1, p.2 + 1) else p)
  else m ++ [(k, 1)]

/-- The payload of a synthesized `build.task.abandoned` event. -/
def abandonedPayload (tid : List Nat) : List Nat :=
  strB ("Task ") ++ qB ++ tid ++ qB
    ++ strB (" abandoned after 3 consecutive build.blocked events")

/-- One step of the thrashing loop (event_loop/mod.rs, lines 2150 – 2196)
over a `build.blocked` event: bump the per-task counter and, on the
third block of a task not yet abandoned, record it and emit
`build.task.abandoned`.  The state carries
`(task_block_counts, abandoned_tasks)` plus the emitted events. -/
def thrashStep (acc : (List (List Nat × Nat) × List (List Nat)) × List Event) (e : Event) :
    (List (List Nat × Nat) × List (List Nat)) × List Event :=
  let tid := extract_task_id e.payload
  let counts := bumpCount acc.1.1 tid
  let cnt := countOf counts tid
  if 3 ≤ cnt ∧ ¬ (tid ∈ acc.1.2) then
    ((counts, acc.1.2 ++ [tid]),
     acc.2 ++ [Event.new (strB ("build.task.abandoned")) (abandonedPayload tid)])
  else ((counts, acc.1.2), acc.2)

/-- The thrashing pass over the validated events: every `build.blocked`
event is counted; returns the updated counters, the updated abandoned
set and the `build.task.abandoned` events published. -/
def processBlocked (counts : List (List Nat × Nat)) (abandoned : List (List Nat))
    (validated : List Event) :
    (List (List Nat × Nat) × List (List Nat)) × List Event :=
  (validated.filter (fun e => e.topic == strB ("build.blocked"))).foldl
    thrashStep ((counts, abandoned), [])

/-!
## The full ingest step (event_loop/mod.rs, lines 1849 – 2345)

`process_events_from_jsonl` without a robot service: malformed lines
are published as `event.malformed` and counted; events are validated in
journal order; thrashing is detected over the validated events; a
`human.interact` payload that parses as proactive options is attached;
finally all validated events are published.  `hasSubscriber` abstracts
`HatRegistry::has_subscriber` (`hat_registry.rs` is not among the
provided sources); it only decides the returned “orphans” flag. -/
def process_events_from_jsonl
    (pt : List Nat → Option TriageDecision) (ps : List Nat → Option TestStrategy)
    (po : List Nat → Option ProactiveOptions) (hasSubscriber : List Nat → Bool)
    (cfg : EventLoopCfg) (st : LoopState) (bus : EventBus)
    (events : List JournalEvent) (malformed : List (List Nat)) :
    LoopState × EventBus × Bool :=
  let bus0 := malformed.foldl
    (fun b p => (publish pt ps b (Event.new (strB ("event.malformed")) p)).1) bus
  let st0 := { st with consecutive_malformed_events :=
    st.consecutive_malformed_events + malformed.length }
  let st1 := if events.isEmpty then st0 else { st0 with consecutive_malformed_events := 0 }
  if events.isEmpty ∧ malformed.isEmpty then (st1, bus0, false)
  else
    let vres := validateLoop cfg.completion_promise st1.active_strategy events.length 0 events
    let outcomes := vres.1
    let st2 := if vres.2 then { st1 with completion_requested := true } else st1
    let st3 := { st2 with is_halted := st2.is_halted || outcomes.any (fun o => o.halted) }
    let validated := outcomes.map (fun o => o.out)
    let tres := processBlocked st3.task_block_counts st3.abandoned_tasks validated
    let bus1 := tres.2.foldl (fun b e => (publish pt ps b e).1) bus0
    let st4 := { st3 with task_block_counts := tres.1.1, abandoned_tasks := tres.1.2 }
    let st5 :=
      if validated.any (fun e => e.topic == strB ("build.blocked")) then
        { st4 with consecutive_blocked := st4.consecutive_blocked + 1 }
      else { st4 with consecutive_blocked := 0, last_blocked_hat := none }
    let withOptions :=
      match validated.findIdx? (fun e => e.topic == strB ("human.interact")) with
      | some idx =>
        match validated.get? idx with
        | some ev =>
          match po ev.payload with
          | some opts => (validated.set idx { ev with options := some opts }, some opts)
          | none => (validated, st5.active_options)
        | none => (validated, st5.active_options)
      | none => (validated, st5.active_options)
    let st6 := { st5 with active_options := withOptions.2 }
    let bus2 := withOptions.1.foldl (fun b e => (publish pt ps b e).1) bus1
    (st6, bus2, withOptions.1.any (fun e => !hasSubscriber e.topic))

/-!
## The recovery queue (crates/ralph-core/src/recovery_queue.rs)

The sentinel file is modelled by its contents (`none` = the file does
not exist).  The timestamp is an explicit input.
-/

/-- The entry rendered by `RecoveryQueue::record_failure`
(recovery_queue.rs, lines 36 – 67). -/
def renderRecoveryEntry (timestamp task_id reason : List Nat)
    (last_sha : Option (List Nat)) : List Nat :=
  let sha_display := last_sha.getD (strB ("unknown"))
  let rollback_cmd :=
    match last_sha with
    | some sha => strB ("`git reset --hard ") ++ sha ++ strB ("`")
    | none => strB ("*No snapshot SHA available for automated rollback.*")
  strB ("# 🚨 RECOVERY REQUIRED (") ++ timestamp
    ++ strB (")\n\n\n             ## Failed Task\n\n             - **ID:** ") ++ task_id
    ++ strB ("\n\n             - **Reason:** ") ++ reason
    ++ strB ("\n\n\n             ## Recovery Options\n\n             - **Last Safe Snapshot:** `")
    ++ sha_display
    ++ strB ("`\n\n             - **Rollback Command:** ") ++ rollback_cmd
    ++ strB ("\n\n\n             --- \n\n             *Human Commander: Please resolve the issue and CLEAR THIS FILE to resume orchestration.*\n")

/-- `RecoveryQueue::record_failure` (recovery_queue.rs, lines 30 – 71):
the rendered entry is written with `fs::write`, which creates or
truncates the file — the resulting contents are exactly the new entry,
whatever `prev` contained. -/
def record_failure (prev : Option (List Nat)) (timestamp task_id reason : List Nat)
    (last_sha : Option (List Nat)) : List Nat :=
  let _ := prev
  renderRecoveryEntry timestamp task_id reason last_sha

/-- `RecoveryQueue::is_blocked` (recovery_queue.rs, lines 19 – 27). -/
def is_blocked (content : Option (List Nat)) : Bool :=
  match content with
  | none => false
  | some c => !(trimB c).isEmpty

/-- A configuration whose iteration / runtime / cost / failure limits
are far from being hit, so that only the thrashing and validation
checks of `check_termination` could fire. -/
def c4cfg : EventLoopCfg :=
  { completion_promise := strB ("task.complete"), max_iterations := 100
    max_runtime_seconds := 3600, max_cost_usd := none, max_consecutive_failures := 100
    persistent := false, mutation_score_warn_threshold := none }

/-- A bus with the single global-wildcard subscriber `ralph`, which
therefore receives every routed event in its pending queue. -/
def c4bus : EventBus :=
  { hats := [(strB ("ralph"),
      { id := strB ("ralph"), name := strB ("Ralph"), description := []
        subscriptions := [[42]], publishes := [], instructions := [] })]
    pending := [], human_pending := [], routing_mode := none, active_strategy := none }

/-- A journal batch holding one `build.blocked` event whose payload's
first line — the task id — is `T1`. -/
def c4batch : List JournalEvent :=
  [{ topic := strB ("build.blocked"), payload := some (strB ("T1\nstuck")) }]

/-- One ingest of the `c4batch` journal batch. -/
def c4step (p : LoopState × EventBus × Bool) : LoopState × EventBus × Bool :=
  process_events_from_jsonl (fun _ => none) (fun _ => none) (fun _ => none)
    (fun _ => true) c4cfg p.1 p.2.1 c4batch []

/-- `n` successive ingests of a `build.blocked` batch for task `T1`,
starting from a fresh loop state and the `c4bus` bus. -/
def c4run : Nat → LoopState × EventBus × Bool
  | 0 => (LoopState.init, c4bus, false)
  | n + 1 => c4step (c4run n)

/-- The quality-report payload of the C7 counterexample: every numeric
threshold of the claim is met and specs is not reported, yet tests are
reported failing. -/
def c7payload : List Nat :=
  strB ("quality.tests: fail\nquality.lint: pass\nquality.audit: pass\nquality.coverage: 90\nquality.mutation: 80\nquality.complexity: 5")

/-!
## Claim theorems
-/

/-- C8: Evidence parsing is idempotent under ANSI stripping: for every
input, parsing backpressure evidence from `strip_ansi(x)` yields the
same result as parsing from `strip_ansi(strip_ansi(x))`; equivalently
`strip_ansi` is idempotent (the parser strips internally). -/
theorem C8_strip_ansi_idempotent (x : List Nat) :
    parse_backpressure_evidence (stripAnsi x) =
      parse_backpressure_evidence (stripAnsi (stripAnsi x)) ∧
    stripAnsi (stripAnsi x) = stripAnsi x := by
  constructor
  · rw [stripAnsi_idem]
  · exact stripAnsi_idem x

/-- C5: for every published event whose topic starts with `human.` —
regardless of target or subscriptions, and for every payload
interception parser — the event is appended to the separate
human-pending queue, the recipient list is empty, every per-hat pending
queue is untouched, and the event is handed out (and cleared) by
`take_human_pending`. -/
theorem C5_human_events_separate_queue
    (pt : List Nat → Option TriageDecision) (ps : List Nat → Option TestStrategy)
    (bus : EventBus) (e : Event)
    (h : (strB ("human.")).isPrefixOf e.topic = true) :
    (publish pt ps bus e).2 = [] ∧
    (publish pt ps bus e).1.human_pending = bus.human_pending ++ [e] ∧
    (publish pt ps bus e).1.pending = bus.pending ∧
    (take_human_pending (publish pt ps bus e).1).1 = bus.human_pending ++ [e] ∧
    (take_human_pending (publish pt ps bus e).1).2.human_pending = [] := by
  unfold publish take_human_pending
  simp [h]

/-- C5 witness: a concrete `human.interact` event on a bus with a
wildcard-subscribed hat goes only to the human queue. -/
theorem C5_human_events_separate_queue_witness :
    (publish (fun _ => none) (fun _ => none)
        { hats := [(strB ("ralph"),
            { id := strB ("ralph"), name := strB ("Ralph"), description := []
              subscriptions := [[42]], publishes := [], instructions := [] })]
          pending := [(strB ("ralph"), [])], human_pending := []
          routing_mode := none, active_strategy := none }
        (Event.new (strB ("human.interact")) (strB ("question")))).2 = [] ∧
    (publish (fun _ => none) (fun _ => none)
        { hats := [(strB ("ralph"),
            { id := strB ("ralph"), name := strB ("Ralph"), description := []
              subscriptions := [[42]], publishes := [], instructions := [] })]
          pending := [(strB ("ralph"), [])], human_pending := []
          routing_mode := none, active_strategy := none }
        (Event.new (strB ("human.interact")) (strB ("question")))).1.human_pending
      = [] ++ [Event.new (strB ("human.interact")) (strB ("question"))] := by
  have h := C5_human_events_separate_queue (fun _ => none) (fun _ => none)
    { hats := [(strB ("ralph"),
        { id := strB ("ralph"), name := strB ("Ralph"), description := []
          subscriptions := [[42]], publishes := [], instructions := [] })]
      pending := [(strB ("ralph"), [])], human_pending := []
      routing_mode := none, active_strategy := none }
    (Event.new (strB ("human.interact")) (strB ("question"))) (by decide)
  exact ⟨h.1, h.2.1⟩

/-- C3: a `build.done` journal event whose payload has missing
backpressure evidence, or evidence failing the checks, is never
forwarded as `build.done`: its single validated outcome is exactly one
`build.blocked` event in its place (by the C2 characterization,
`validated_events` — the list published to the bus — contains exactly
one outcome per non-completion journal event). -/
theorem C3_build_done_gated (strat : Option TestStrategy) (payload : List Nat)
    (h : parse_backpressure_evidence payload = none ∨
      ∃ ev, parse_backpressure_evidence payload = some ev ∧ ev.all_passed = false) :
    (validateEvent strat (strB ("build.done")) payload).out.topic = strB ("build.blocked") ∧
    (validateEvent strat (strB ("build.done")) payload).out.topic ≠ strB ("build.done") := by
  have htopic : (validateEvent strat (strB ("build.done")) payload).out.topic
      = strB ("build.blocked") := by
    unfold validateEvent
    rcases h with hnone | ⟨ev, hsome, hfail⟩
    · rw [if_pos (by decide)]
      rw [hnone]
      rfl
    · rw [if_pos (by decide)]
      rw [hsome]
      simp only [hfail, Bool.false_and, Bool.false_eq_true, if_false]
      rfl
  exact ⟨htopic, by rw [htopic]; decide⟩

/-- The validation loop, characterised: completion-topic events are
dropped, every other event contributes exactly its validated outcome in
order, and the completion flag is set exactly when the event at the last
index of the batch is on the completion topic. -/
theorem validateLoop_spec (completion : List Nat) (strat : Option TestStrategy) :
    ∀ (evs : List JournalEvent) (i : Nat),
      validateLoop completion strat (i + evs.length) i evs =
        ((evs.filter (fun ev => !(ev.topic == completion))).map
          (fun ev => validateEvent strat ev.topic (ev.payload.getD [])),
         (match evs.getLast? with
          | some ev => ev.topic == completion
          | none => false)) := by
  intro evs
  induction evs with
  | nil => intro i; rfl
  | cons ev rest ih =>
    intro i
    have hacc : validateLoop completion strat (i + (ev :: rest).length) (i + 1) rest
        = ((rest.filter (fun e => !(e.topic == completion))).map
            (fun e => validateEvent strat e.topic (e.payload.getD [])),
           (match rest.getLast? with
            | some e => e.topic == completion
            | none => false)) := by
      have h := ih (i + 1)
      have harith : (i + 1) + rest.length = i + (ev :: rest).length := by
        simp only [List.length_cons]
        omega
      rw [harith] at h
      exact h
    simp only [validateLoop, hacc]
    by_cases hc : (ev.topic == completion) = true
    · cases rest with
      | nil => simp [hc]
      | cons r rs =>
        have hne : ((i + 1 : Nat) == i + (ev :: r :: rs).length) = false := by
          simp only [List.length_cons, beq_eq_false_iff_ne, ne_eq]
          omega
        simp [hc, hne, List.getLast?_cons_cons]
    · cases rest with
      | nil => simp [hc]
      | cons r rs => simp [hc, List.getLast?_cons_cons]

/-- C2: an ingested event on the configured completion topic sets the
completion-requested flag only when it sits at the last index of the
parsed batch, and a completion event is always dropped: whatever its
position, the validated list — the events later published to the bus —
is exactly the per-event validation of the non-completion events.
(`process_events_from_jsonl` then or-s the returned flag into
`completion_requested`.) -/
theorem C2_completion_only_when_last (completion : List Nat) (strat : Option TestStrategy)
    (evs : List JournalEvent) :
    (validateLoop completion strat evs.length 0 evs).1 =
      (evs.filter (fun ev => !(ev.topic == completion))).map
        (fun ev => validateEvent strat ev.topic (ev.payload.getD [])) ∧
    ((validateLoop completion strat evs.length 0 evs).2 = true ↔
      ∃ ev, evs.getLast? = some ev ∧ ev.topic = completion) := by
  have h := validateLoop_spec completion strat evs 0
  rw [Nat.zero_add] at h
  rw [h]
  refine ⟨rfl, ?_⟩
  cases hl : evs.getLast? with
  | none => simp
  | some ev => simp [beq_iff_eq]

/-- C3 witness: a payload with no evidence keys yields `build.blocked`. -/
theorem C3_build_done_gated_witness :
    (validateEvent none (strB ("build.done"))
        (strB ("Task completed successfully"))).out.topic = strB ("build.blocked") :=
  (C3_build_done_gated none (strB ("Task completed successfully"))
    (Or.inl (by decide))).1

/-- C6 counterexample: the description `typo` is shorter than 40
characters and contains no Full keyword, so the claim predicts Simple
with confidence 0.8; the code classifies it Simple with confidence 0.9,
because a first branch the claim omits fires whenever a Simple keyword
is present without a Full keyword. -/
theorem C6_counterexample :
    (TriageHat.analyze (strB ("typo"))).mode = RoutingMode.Simple ∧
    (TriageHat.analyze (strB ("typo"))).confidence = 9/10 ∧
    (strB ("typo")).length < 40 ∧
    (full_keywords.any (fun kw => bytesContain (lowerB (strB ("typo"))) kw)) = false ∧
    ¬ (TriageHat.analyze (strB ("typo"))).confidence = 8/10 := by
  have hs : (simple_keywords.any fun kw => bytesContain (lowerB (strB ("typo"))) kw) = true := by
    decide
  have hf : (full_keywords.any fun kw => bytesContain (lowerB (strB ("typo"))) kw) = false := by
    decide
  refine ⟨?_, ?_, by decide, hf, ?_⟩ <;> simp [TriageHat.analyze, hs, hf] <;> norm_num

/-- C6 amended: a description with a Simple keyword and no Full keyword
is Simple with confidence 0.9 (regardless of length); otherwise a Full
keyword, or length over 200 without a Simple keyword, gives Full with
0.85; otherwise length under 40 gives Simple with 0.8; otherwise
(length 40 – 200, no keywords of either kind) Full with 0.6. -/
theorem C6_triage_amended (d : List Nat) :
    ((simple_keywords.any (fun kw => bytesContain (lowerB d) kw) = true ∧
      full_keywords.any (fun kw => bytesContain (lowerB d) kw) = false) →
      (TriageHat.analyze d).mode = RoutingMode.Simple ∧
        (TriageHat.analyze d).confidence = 9/10) ∧
    ((full_keywords.any (fun kw => bytesContain (lowerB d) kw) = true ∨
      (200 < d.length ∧ simple_keywords.any (fun kw => bytesContain (lowerB d) kw) = false)) →
      (TriageHat.analyze d).mode = RoutingMode.Full ∧
        (TriageHat.analyze d).confidence = 85/100) ∧
    ((d.length < 40 ∧ simple_keywords.any (fun kw => bytesContain (lowerB d) kw) = false ∧
      full_keywords.any (fun kw => bytesContain (lowerB d) kw) = false) →
      (TriageHat.analyze d).mode = RoutingMode.Simple ∧
        (TriageHat.analyze d).confidence = 8/10) ∧
    ((40 ≤ d.length ∧ d.length ≤ 200 ∧
      simple_keywords.any (fun kw => bytesContain (lowerB d) kw) = false ∧
      full_keywords.any (fun kw => bytesContain (lowerB d) kw) = false) →
      (TriageHat.analyze d).mode = RoutingMode.Full ∧
        (TriageHat.analyze d).confidence = 6/10) := by
  unfold TriageHat.analyze
  refine ⟨?_, ?_, ?_, ?_⟩
  · rintro ⟨hs, hf⟩
    simp [hs, hf]
  · rintro (hf | ⟨hlong, hs⟩)
    · simp [hf]
    · have hl : decide (200 < d.length) = true := decide_eq_true hlong
      simp [hs, hl]
  · rintro ⟨hshort, hs, hf⟩
    have h2 : ¬ (200 < d.length) := by omega
    simp [hs, hf, hshort, h2]
  · rintro ⟨h40, h200, hs, hf⟩
    have h1 : ¬ (d.length < 40) := by omega
    have h2 : ¬ (200 < d.length) := by omega
    simp [hs, hf, h1, h2]

/-- C6 amended witness: one concrete description per amended rule. -/
theorem C6_triage_amended_witness :
    (TriageHat.analyze (strB ("typo"))).confidence = 9/10 ∧
    (TriageHat.analyze (strB ("implement the feature"))).confidence = 85/100 ∧
    (TriageHat.analyze (strB ("update the file"))).confidence = 8/10 ∧
    (TriageHat.analyze
      (strB ("please change the colour of the main header banner"))).confidence = 6/10 := by
  refine ⟨((C6_triage_amended _).1 ⟨by decide, by decide⟩).2,
    ((C6_triage_amended _).2.1 (Or.inl (by decide))).2,
    ((C6_triage_amended _).2.2.1 ⟨by decide, by decide, by decide⟩).2,
    ((C6_triage_amended _).2.2.2 ⟨by decide, by decide, by decide, by decide⟩).2⟩

set_option maxRecDepth 8000 in
/-- C7 counterexample: a parsed report with coverage 90 ≥ 80, mutation
80 ≥ 70, complexity 5 ≤ 10 and no specs entry — so the claim's “if and
only if” predicts it passes — fails `meets_thresholds`, because the code
additionally requires the `tests`, `lint` and `audit` booleans to be
reported passing (here `tests: fail`). -/
theorem C7_counterexample :
    parse_quality_report c7payload =
      some { tests_passed := some false, lint_passed := some true, audit_passed := some true
             coverage_percent := some 90, mutation_percent := some 80
             complexity_score := some 5, specs_verified := none } ∧
    QualityReport.meets_thresholds
      { tests_passed := some false, lint_passed := some true, audit_passed := some true
        coverage_percent := some 90, mutation_percent := some 80
        complexity_score := some 5, specs_verified := none } = false ∧
    COVERAGE_THRESHOLD ≤ (90 : ℚ) ∧ MUTATION_THRESHOLD ≤ (80 : ℚ) ∧
    (5 : ℚ) ≤ COMPLEXITY_THRESHOLD := by
  refine ⟨by decide, rfl, ?_, ?_, ?_⟩
  all_goals norm_num [COVERAGE_THRESHOLD, MUTATION_THRESHOLD, COMPLEXITY_THRESHOLD]

/-- C7 amended: a parsed quality report passes verification iff tests,
lint and audit are all reported passing, coverage ≥ 80, mutation ≥ 70,
complexity ≤ 10, and specs is not reported as fail; and a
`verify.passed` event whose report is missing or does not pass is
rewritten to `verify.failed`. -/
theorem C7_quality_thresholds_amended :
    (∀ r : QualityReport,
      r.meets_thresholds = true ↔
        (r.tests_passed = some true ∧ r.lint_passed = some true ∧
          r.audit_passed = some true ∧
          (∃ c, r.coverage_percent = some c ∧ COVERAGE_THRESHOLD ≤ c) ∧
          (∃ m, r.mutation_percent = some m ∧ MUTATION_THRESHOLD ≤ m) ∧
          (∃ x, r.complexity_score = some x ∧ x ≤ COMPLEXITY_THRESHOLD) ∧
          r.specs_verified ≠ some false)) ∧
    (∀ (strat : Option TestStrategy) (payload : List Nat),
      (parse_quality_report payload = none ∨
        ∃ r, parse_quality_report payload = some r ∧ r.meets_thresholds = false) →
      (validateEvent strat (strB ("verify.passed")) payload).out.topic
        = strB ("verify.failed")) := by
  constructor
  · intro r
    rcases r with ⟨t, li, au, cov, mu, comp, sp⟩
    cases cov <;> cases mu <;> cases comp <;>
      simp [QualityReport.meets_thresholds] <;> tauto
  · intro strat payload h
    unfold validateEvent
    rw [if_neg (by decide), if_neg (by decide), if_pos (by decide)]
    rcases h with hnone | ⟨r, hr, hm⟩
    · rw [hnone]
      rfl
    · rw [hr]
      simp only [hm, Bool.false_eq_true, if_false]
      rfl

/-- C7 amended witness: a fully passing report meets the thresholds, and
a `verify.passed` without a report is rewritten to `verify.failed`. -/
theorem C7_quality_thresholds_amended_witness :
    QualityReport.meets_thresholds
      { tests_passed := some true, lint_passed := some true, audit_passed := some true
        coverage_percent := some 82, mutation_percent := some 71
        complexity_score := some 7, specs_verified := none } = true ∧
    (validateEvent none (strB ("verify.passed"))
        (strB ("Looks good, approved!"))).out.topic = strB ("verify.failed") := by
  constructor
  · exact (C7_quality_thresholds_amended.1 _).mpr
      ⟨rfl, rfl, rfl, ⟨82, rfl, by norm_num [COVERAGE_THRESHOLD]⟩,
        ⟨71, rfl, by norm_num [MUTATION_THRESHOLD]⟩,
        ⟨7, rfl, by norm_num [COMPLEXITY_THRESHOLD]⟩, by simp⟩
  · exact C7_quality_thresholds_amended.2 none _ (Or.inl (by decide))

/-- C9 counterexample: recording a failure does not leave previously
recorded entries in place — `record_failure` writes with `fs::write`,
which truncates, so the prior contents are not even a prefix of the new
file contents.  Under append semantics the old contents would be a
prefix. -/
theorem C9_counterexample :
    ¬ ((strB ("# earlier entry")) <+:
      record_failure (some (strB ("# earlier entry")))
        (strB ("2026-10-12 00:00:00 UTC")) (strB ("T1")) (strB ("tests failed"))
        (some (strB ("abc123")))) := by
  decide

/-- A non-whitespace member survives `dropWhile isWsB` (the dropped part
is a prefix of whitespace bytes). -/
theorem mem_dropWhile_of_not_ws {b : Nat} {l : List Nat}
    (hmem : b ∈ l) (hb : isWsB b = false) : b ∈ l.dropWhile isWsB := by
  have hsplit : l.takeWhile isWsB ++ l.dropWhile isWsB = l :=
    List.takeWhile_append_dropWhile isWsB l
  rw [← hsplit] at hmem
  rcases List.mem_append.mp hmem with htake | hdrop
  · have := List.mem_takeWhile_imp htake
    rw [hb] at this
    exact absurd this (by simp)
  · exact hdrop

/-- A file containing any non-whitespace byte blocks the loop. -/
theorem is_blocked_of_not_ws_mem {b : Nat} {c : List Nat}
    (hmem : b ∈ c) (hb : isWsB b = false) : is_blocked (some c) = true := by
  unfold is_blocked trimB
  show (!((c.dropWhile isWsB).reverse.dropWhile isWsB).reverse.isEmpty) = true
  have h1 : b ∈ c.dropWhile isWsB := mem_dropWhile_of_not_ws hmem hb
  have h2 : b ∈ (c.dropWhile isWsB).reverse := List.mem_reverse.mpr h1
  have h3 : b ∈ ((c.dropWhile isWsB).reverse.dropWhile isWsB) :=
    mem_dropWhile_of_not_ws h2 hb
  rcases h4 : ((c.dropWhile isWsB).reverse.dropWhile isWsB).reverse with _ | ⟨a, t⟩
  · exact absurd (List.reverse_eq_nil_iff.mp h4 ▸ h3) (List.not_mem_nil b)
  · rfl

/-- C9 amended: on a validated backpressure failure the structured entry
— carrying the timestamp, the task id, the failure reason, the last
snapshot identifier and a rollback hint — replaces the sentinel file's
previous contents (`fs::write` truncates): the result is exactly the
rendered entry, independent of what the file held before, each field
occurs in it, and the sentinel is non-empty afterwards, so the loop is
blocked. -/
theorem C9_recovery_entry_amended (prev prev2 : Option (List Nat))
    (ts tid reason : List Nat) (sha : Option (List Nat)) :
    record_failure prev ts tid reason sha = renderRecoveryEntry ts tid reason sha ∧
    record_failure prev ts tid reason sha = record_failure prev2 ts tid reason sha ∧
    ts <:+: record_failure prev ts tid reason sha ∧
    tid <:+: record_failure prev ts tid reason sha ∧
    reason <:+: record_failure prev ts tid reason sha ∧
    (sha.getD (strB ("unknown"))) <:+: record_failure prev ts tid reason sha ∧
    is_blocked (some (record_failure prev ts tid reason sha)) = true := by
  have hblocked : is_blocked (some (record_failure prev ts tid reason sha)) = true := by
    refine is_blocked_of_not_ws_mem (b := 35) ?_ (by decide)
    have h35 : (35 : Nat) ∈ strB ("# 🚨 RECOVERY REQUIRED (") := by decide
    exact List.mem_append_left _ (List.mem_append_left _ (List.mem_append_left _
      (List.mem_append_left _ (List.mem_append_left _ (List.mem_append_left _
      (List.mem_append_left _ (List.mem_append_left _ (List.mem_append_left _
      (List.mem_append_left _ h35)))))))))
  cases sha with
  | none =>
    refine ⟨rfl, rfl, ?_, ?_, ?_, ?_, hblocked⟩
    · exact ⟨strB ("# 🚨 RECOVERY REQUIRED ("),
      strB (")\n\n\n             ## Failed Task\n\n             - **ID:** ") ++ tid
        ++ strB ("\n\n             - **Reason:** ") ++ reason
        ++ strB ("\n\n\n             ## Recovery Options\n\n             - **Last Safe Snapshot:** `")
        ++ strB ("unknown")
        ++ strB ("`\n\n             - **Rollback Command:** ")
        ++ strB ("*No snapshot SHA available for automated rollback.*")
        ++ strB ("\n\n\n             --- \n\n             *Human Commander: Please resolve the issue and CLEAR THIS FILE to resume orchestration.*\n"),
      by simp only [record_failure, renderRecoveryEntry, Option.getD, List.append_assoc]⟩
    · exact ⟨strB ("# 🚨 RECOVERY REQUIRED (") ++ ts
        ++ strB (")\n\n\n             ## Failed Task\n\n             - **ID:** "),
      strB ("\n\n             - **Reason:** ") ++ reason
        ++ strB ("\n\n\n             ## Recovery Options\n\n             - **Last Safe Snapshot:** `")
        ++ strB ("unknown")
        ++ strB ("`\n\n             - **Rollback Command:** ")
        ++ strB ("*No snapshot SHA available for automated rollback.*")
        ++ strB ("\n\n\n             --- \n\n             *Human Commander: Please resolve the issue and CLEAR THIS FILE to resume orchestration.*\n"),
      by simp only [record_failure, renderRecoveryEntry, Option.getD, List.append_assoc]⟩
    · exact ⟨strB ("# 🚨 RECOVERY REQUIRED (") ++ ts
        ++ strB (")\n\n\n             ## Failed Task\n\n             - **ID:** ") ++ tid
        ++ strB ("\n\n             - **Reason:** "),
      strB ("\n\n\n             ## Recovery Options\n\n             - **Last Safe Snapshot:** `")
        ++ strB ("unknown")
        ++ strB ("`\n\n             - **Rollback Command:** ")
        ++ strB ("*No snapshot SHA available for automated rollback.*")
        ++ strB ("\n\n\n             --- \n\n             *Human Commander: Please resolve the issue and CLEAR THIS FILE to resume orchestration.*\n"),
      by simp only [record_failure, renderRecoveryEntry, Option.getD, List.append_assoc]⟩
    · show strB ("unknown") <:+: record_failure prev ts tid reason none
      exact ⟨strB ("# 🚨 RECOVERY REQUIRED (") ++ ts
        ++ strB (")\n\n\n             ## Failed Task\n\n             - **ID:** ") ++ tid
        ++ strB ("\n\n             - **Reason:** ") ++ reason
        ++ strB ("\n\n\n             ## Recovery Options\n\n             - **Last Safe Snapshot:** `"),
      strB ("`\n\n             - **Rollback Command:** ")
        ++ strB ("*No snapshot SHA available for automated rollback.*")
        ++ strB ("\n\n\n             --- \n\n             *Human Commander: Please resolve the issue and CLEAR THIS FILE to resume orchestration.*\n"),
      by simp only [record_failure, renderRecoveryEntry, Option.getD, List.append_assoc]⟩
  | some s =>
    refine ⟨rfl, rfl, ?_, ?_, ?_, ?_, hblocked⟩
    · exact ⟨strB ("# 🚨 RECOVERY REQUIRED ("),
      strB (")\n\n\n             ## Failed Task\n\n             - **ID:** ") ++ tid
        ++ strB ("\n\n             - **Reason:** ") ++ reason
        ++ strB ("\n\n\n             ## Recovery Options\n\n             - **Last Safe Snapshot:** `")
        ++ s
        ++ strB ("`\n\n             - **Rollback Command:** ")
        ++ strB ("`git reset --hard ") ++ s ++ strB ("`")
        ++ strB ("\n\n\n             --- \n\n             *Human Commander: Please resolve the issue and CLEAR THIS FILE to resume orchestration.*\n"),
      by simp only [record_failure, renderRecoveryEntry, Option.getD, List.append_assoc]⟩
    · exact ⟨strB ("# 🚨 RECOVERY REQUIRED (") ++ ts
        ++ strB (")\n\n\n             ## Failed Task\n\n             - **ID:** "),
      strB ("\n\n             - **Reason:** ") ++ reason
        ++ strB ("\n\n\n             ## Recovery Options\n\n             - **Last Safe Snapshot:** `")
        ++ s
        ++ strB ("`\n\n             - **Rollback Command:** ")
        ++ strB ("`git reset --hard ") ++ s ++ strB ("`")
        ++ strB ("\n\n\n             --- \n\n             *Human Commander: Please resolve the issue and CLEAR THIS FILE to resume orchestration.*\n"),
      by simp only [record_failure, renderRecoveryEntry, Option.getD, List.append_assoc]⟩
    · exact ⟨strB ("# 🚨 RECOVERY REQUIRED (") ++ ts
        ++ strB (")\n\n\n             ## Failed Task\n\n             - **ID:** ") ++ tid
        ++ strB ("\n\n             - **Reason:** "),
      strB ("\n\n\n             ## Recovery Options\n\n             - **Last Safe Snapshot:** `")
        ++ s
        ++ strB ("`\n\n             - **Rollback Command:** ")
        ++ strB ("`git reset --hard ") ++ s ++ strB ("`")
        ++ strB ("\n\n\n             --- \n\n             *Human Commander: Please resolve the issue and CLEAR THIS FILE to resume orchestration.*\n"),
      by simp only [record_failure, renderRecoveryEntry, Option.getD, List.append_assoc]⟩
    · show s <:+: record_failure prev ts tid reason (some s)
      exact ⟨strB ("# 🚨 RECOVERY REQUIRED (") ++ ts
        ++ strB (")\n\n\n             ## Failed Task\n\n             - **ID:** ") ++ tid
        ++ strB ("\n\n             - **Reason:** ") ++ reason
        ++ strB ("\n\n\n             ## Recovery Options\n\n             - **Last Safe Snapshot:** `"),
      strB ("`\n\n             - **Rollback Command:** ")
        ++ strB ("`git reset --hard ") ++ s ++ strB ("`")
        ++ strB ("\n\n\n             --- \n\n             *Human Commander: Please resolve the issue and CLEAR THIS FILE to resume orchestration.*\n"),
      by simp only [record_failure, renderRecoveryEntry, Option.getD, List.append_assoc]⟩

/-- C10 counterexample: an event on a `human.` topic whose target names
an unregistered hat returns no recipients, but it does not leave the
human queue unchanged — it is appended there, because the `human.`
check precedes the target check. -/
theorem C10_counterexample :
    (publish (fun _ => none) (fun _ => none)
        { hats := [], pending := [], human_pending := []
          routing_mode := none, active_strategy := none }
        { Event.new (strB ("human.ask")) (strB ("q")) with
            target := some (strB ("ghost")) }).2 = [] ∧
    (publish (fun _ => none) (fun _ => none)
        { hats := [], pending := [], human_pending := []
          routing_mode := none, active_strategy := none }
        { Event.new (strB ("human.ask")) (strB ("q")) with
            target := some (strB ("ghost")) }).1.human_pending ≠ [] := by
  constructor
  · rfl
  · decide

/-- C10 amended: for every published event on a topic not starting with
`human.` whose target hat id is not registered, publish returns an empty
recipient list and leaves every per-hat pending queue and the human
queue unchanged: the event is dropped and does not fall back to the
wildcard subscriber. -/
theorem C10_unregistered_target_dropped
    (pt : List Nat → Option TriageDecision) (ps : List Nat → Option TestStrategy)
    (bus : EventBus) (e : Event) (t : List Nat)
    (htarget : e.target = some t)
    (hreg : assocHasKey bus.hats t = false)
    (hhuman : (strB ("human.")).isPrefixOf e.topic = false) :
    (publish pt ps bus e).2 = [] ∧
    (publish pt ps bus e).1.pending = bus.pending ∧
    (publish pt ps bus e).1.human_pending = bus.human_pending := by
  unfold publish
  simp [hhuman, htarget, hreg]

/-- C10 amended witness: a concrete event with an unregistered target on
a bus with one registered hat. -/
theorem C10_unregistered_target_dropped_witness :
    (publish (fun _ => none) (fun _ => none)
        { hats := [(strB ("builder"),
            { id := strB ("builder"), name := strB ("Builder"), description := []
              subscriptions := [strB ("build.task")], publishes := [], instructions := [] })]
          pending := [], human_pending := []
          routing_mode := none, active_strategy := none }
        { Event.new (strB ("build.task")) (strB ("x")) with
            target := some (strB ("ghost")) }).2 = [] ∧
    (publish (fun _ => none) (fun _ => none)
        { hats := [(strB ("builder"),
            { id := strB ("builder"), name := strB ("Builder"), description := []
              subscriptions := [strB ("build.task")], publishes := [], instructions := [] })]
          pending := [], human_pending := []
          routing_mode := none, active_strategy := none }
        { Event.new (strB ("build.task")) (strB ("x")) with
            target := some (strB ("ghost")) }).1.pending = [] := by
  have h := C10_unregistered_target_dropped (fun _ => none) (fun _ => none)
    { hats := [(strB ("builder"),
        { id := strB ("builder"), name := strB ("Builder"), description := []
          subscriptions := [strB ("build.task")], publishes := [], instructions := [] })]
      pending := [], human_pending := []
      routing_mode := none, active_strategy := none }
    { Event.new (strB ("build.task")) (strB ("x")) with target := some (strB ("ghost")) }
    (strB ("ghost")) rfl (by decide) (by decide)
  exact ⟨h.1, h.2.1⟩

/-- Membership in the two recipient lists produced by the routing pass:
an id is a specific recipient iff it is registered with a hat that
survives the triage filter and has a specific (non-global-wildcard)
subscription matching the topic, and a fallback recipient iff its hat
survives the filter, has no specific subscription, but is subscribed
(via the global wildcard). -/
theorem routePartition_mem (mode : Option RoutingMode) (topic : List Nat)
    (hats : List (List Nat × Hat)) (id : List Nat) :
    (id ∈ (routePartition mode topic hats).1 ↔
      ∃ hat, (id, hat) ∈ hats ∧ routingFiltered mode id topic = false ∧
        hat.has_specific_subscription topic = true) ∧
    (id ∈ (routePartition mode topic hats).2 ↔
      ∃ hat, (id, hat) ∈ hats ∧ routingFiltered mode id topic = false ∧
        hat.has_specific_subscription topic = false ∧
        hat.is_subscribed topic = true) := by
  induction hats with
  | nil => simp [routePartition]
  | cons p rest ih =>
    obtain ⟨pid, phat⟩ := p
    obtain ⟨ih1, ih2⟩ := ih
    rcases Bool.eq_false_or_eq_true (routingFiltered mode pid topic) with hf | hf <;>
      rcases Bool.eq_false_or_eq_true (phat.has_specific_subscription topic) with hs | hs <;>
      rcases Bool.eq_false_or_eq_true (phat.is_subscribed topic) with hb | hb <;>
      constructor <;>
      simp only [routePartition, hf, hs, hb, if_true, if_false, Bool.false_eq_true,
        Bool.true_eq_false, ite_true, ite_false, List.mem_cons, ih1, ih2,
        Prod.mk.injEq] <;>
      constructor
    all_goals
      first
        | (rintro ⟨hat, (⟨rfl, rfl⟩ | hm), hfil, hrest⟩
           · first
               | exact Or.inl rfl
               | (exfalso; simp_all)
           · first
               | exact Or.inr ⟨hat, hm, hfil, hrest⟩
               | exact ⟨hat, hm, hfil, hrest⟩)
        | (rintro ⟨hat, (⟨rfl, rfl⟩ | hm), hfil, hspec, hsub⟩
           · first
               | exact Or.inl rfl
               | (exfalso; simp_all)
           · first
               | exact Or.inr ⟨hat, hm, hfil, hspec, hsub⟩
               | exact ⟨hat, hm, hfil, hspec, hsub⟩)
        | (rintro (rfl | hm)
           · exact ⟨phat, Or.inl ⟨rfl, rfl⟩, hf, hs⟩
           · obtain ⟨hat, hm2, hfil, hrest⟩ := hm
             exact ⟨hat, Or.inr hm2, hfil, hrest⟩)
        | (rintro (rfl | hm)
           · exact ⟨phat, Or.inl ⟨rfl, rfl⟩, hf, hs, hb⟩
           · obtain ⟨hat, hm2, hfil, hspec, hsub⟩ := hm
             exact ⟨hat, Or.inr hm2, hfil, hspec, hsub⟩)
        | (rintro ⟨hat, hm, hfil, hrest⟩
           exact ⟨hat, Or.inr hm, hfil, hrest⟩)
        | (rintro ⟨hat, hm, hfil, hspec, hsub⟩
           exact ⟨hat, Or.inr hm, hfil, hspec, hsub⟩)
        | (rintro ⟨hat, (⟨rfl, rfl⟩ | hm), hfil, hrest⟩
           · exfalso; simp_all
           · exact ⟨hat, hm, hfil, hrest⟩)
        | (rintro ⟨hat, (⟨rfl, rfl⟩ | hm), hfil, hspec, hsub⟩
           · exfalso; simp_all
           · exact ⟨hat, hm, hfil, hspec, hsub⟩)

/-- The `pending`-pushing fold of `publish` changes no other field of
the bus. -/
theorem pushFoldl_fields (e : Event) :
    ∀ (l : List (List Nat)) (b : EventBus),
    ((l.foldl (fun b id => { b with pending := pushPending b.pending id e }) b).hats
        = b.hats) ∧
    ((l.foldl (fun b id => { b with pending := pushPending b.pending id e }) b).routing_mode
        = b.routing_mode)
  | [], _ => ⟨rfl, rfl⟩
  | id :: rest, b =>
    pushFoldl_fields e rest { b with pending := pushPending b.pending id e }

/-- The routing mode after `publish` is the bus's mode, updated by the
`triage.decision` interception when that payload parses. -/
theorem publish_routing_mode (pt : List Nat → Option TriageDecision)
    (ps : List Nat → Option TestStrategy) (bus : EventBus) (e : Event) :
    (publish pt ps bus e).1.routing_mode =
      (if e.topic == strB ("triage.decision") then
        match pt e.payload with
        | some d => some d.mode
        | none => bus.routing_mode
       else bus.routing_mode) := by
  unfold publish
  cases hh : (strB ("human.")).isPrefixOf e.topic with
  | true => simp [hh]
  | false =>
    simp only [hh, Bool.false_eq_true, if_false]
    cases ht : e.target with
    | some t =>
      cases hk : assocHasKey bus.hats t with
      | true => simp [hk]
      | false => simp [hk]
    | none =>
      exact (pushFoldl_fields e _ _).2

/-- C1 counterexample: a bus with hat `a` specifically subscribed to
topic `t` and hat `b` with no subscriptions; an event on `t` targeted at
`b` is delivered to `b` alone.  Hat `a` is a registered specific
subscriber of `t`, so the claim's `iff` says `a` receives it — but an
explicit target routes the event only to the target, skipping the
subscription pass entirely. -/
theorem C1_counterexample :
    Hat.has_specific_subscription
      { id := strB ("a"), name := [], description := []
        subscriptions := [strB ("t")], publishes := [], instructions := [] }
      (strB ("t")) = true ∧
    (publish (fun _ => none) (fun _ => none)
        { hats := [(strB ("a"),
            { id := strB ("a"), name := [], description := []
              subscriptions := [strB ("t")], publishes := [], instructions := [] }),
            (strB ("b"),
            { id := strB ("b"), name := [], description := []
              subscriptions := [], publishes := [], instructions := [] })]
          pending := [], human_pending := [], routing_mode := none, active_strategy := none }
        { Event.new (strB ("t")) [] with target := some (strB ("b")) }).2
      = [strB ("b")] ∧
    ¬ (strB ("a")) ∈ (publish (fun _ => none) (fun _ => none)
        { hats := [(strB ("a"),
            { id := strB ("a"), name := [], description := []
              subscriptions := [strB ("t")], publishes := [], instructions := [] }),
            (strB ("b"),
            { id := strB ("b"), name := [], description := []
              subscriptions := [], publishes := [], instructions := [] })]
          pending := [], human_pending := [], routing_mode := none, active_strategy := none }
        { Event.new (strB ("t")) [] with target := some (strB ("b")) }).2 := by
  refine ⟨by decide, by decide, by decide⟩

/-- C1 amended: for every published event, (i) a `human.`-topic event
has no hat recipients at all; (ii) otherwise, if the event carries a
target, the recipients are exactly the target when it is registered and
empty when it is not — subscriptions are never consulted; (iii) only
for an untargeted non-`human.` event does subscription routing run: a
hat receives the event iff it is registered, survives the triage-mode
filter, and either has a specific (non-global-wildcard) subscription
matching the topic, or no unfiltered registered hat has one and it is
subscribed via the global wildcard.  The mode used by the filter is the
post-publish routing mode (the `triage.decision` interception applies
to the event itself). -/
theorem C1_routing_amended (pt : List Nat → Option TriageDecision)
    (ps : List Nat → Option TestStrategy) (bus : EventBus) (e : Event) (id : List Nat) :
    ((strB ("human.")).isPrefixOf e.topic = true → (publish pt ps bus e).2 = []) ∧
    ((strB ("human.")).isPrefixOf e.topic = false → ∀ t, e.target = some t →
      (publish pt ps bus e).2 = (if assocHasKey bus.hats t then [t] else [])) ∧
    ((strB ("human.")).isPrefixOf e.topic = false → e.target = none →
      (id ∈ (publish pt ps bus e).2 ↔
        (∃ hat, (id, hat) ∈ bus.hats ∧
            routingFiltered (publish pt ps bus e).1.routing_mode id e.topic = false ∧
            hat.has_specific_subscription e.topic = true) ∨
        ((¬ ∃ id2 hat2, (id2, hat2) ∈ bus.hats ∧
            routingFiltered (publish pt ps bus e).1.routing_mode id2 e.topic = false ∧
            hat2.has_specific_subscription e.topic = true) ∧
          ∃ hat, (id, hat) ∈ bus.hats ∧
            routingFiltered (publish pt ps bus e).1.routing_mode id e.topic = false ∧
            hat.has_specific_subscription e.topic = false ∧
            hat.is_subscribed e.topic = true))) := by
  refine ⟨?_, ?_, ?_⟩
  · intro hh
    unfold publish
    simp [hh]
  · intro hh t ht
    unfold publish
    rcases Bool.eq_false_or_eq_true (assocHasKey bus.hats t) with hk | hk <;>
      simp [hh, ht, hk]
  · intro hh ht
    rw [publish_routing_mode pt ps bus e]
    conv_lhs => unfold publish
    simp only [hh, Bool.false_eq_true, if_false, ht]
    rcases hp : (routePartition
        (if e.topic == strB ("triage.decision") then
          match pt e.payload with
          | some d => some d.mode
          | none => bus.routing_mode
         else bus.routing_mode) e.topic bus.hats).1 with _ | ⟨a, as⟩
    · simp only [hp, List.isEmpty_nil, if_true]
      constructor
      · intro h
        refine Or.inr ⟨?_, (routePartition_mem _ e.topic bus.hats id).2.mp h⟩
        rintro ⟨id2, hat2, hm, hfil, hsp⟩
        have h2 := (routePartition_mem _ e.topic bus.hats id2).1.mpr ⟨hat2, hm, hfil, hsp⟩
        rw [hp] at h2
        exact absurd h2 (List.not_mem_nil id2)
      · rintro (⟨hat, hm, hfil, hsp⟩ | ⟨_, hsnd⟩)
        · have h2 := (routePartition_mem _ e.topic bus.hats id).1.mpr ⟨hat, hm, hfil, hsp⟩
          rw [hp] at h2
          exact absurd h2 (List.not_mem_nil id)
        · exact (routePartition_mem _ e.topic bus.hats id).2.mpr hsnd
    · simp only [hp, List.isEmpty_cons, if_false]
      constructor
      · intro h
        exact Or.inl ((routePartition_mem _ e.topic bus.hats id).1.mp (hp ▸ h))
      · rintro (h1 | ⟨hne, _⟩)
        · have h2 := (routePartition_mem _ e.topic bus.hats id).1.mpr h1
          rw [hp] at h2
          exact h2
        · exfalso
          apply hne
          have ha : a ∈ (routePartition
              (if e.topic == strB ("triage.decision") then
                match pt e.payload with
                | some d => some d.mode
                | none => bus.routing_mode
               else bus.routing_mode) e.topic bus.hats).1 := by
            rw [hp]; exact List.mem_cons_self a as
          obtain ⟨hat, hm, hfil, hsp⟩ :=
            (routePartition_mem _ e.topic bus.hats a).1.mp ha
          exact ⟨a, hat, hm, hfil, hsp⟩

/-- C1 amended witness: on a bus with a specific subscriber `a` of `t`
and an unsubscribed hat `b`, a targeted event reaches only its target,
and an untargeted event reaches the specific subscriber. -/
theorem C1_routing_amended_witness :
    (publish (fun _ => none) (fun _ => none)
        { hats := [(strB ("a"),
            { id := strB ("a"), name := [], description := []
              subscriptions := [strB ("t")], publishes := [], instructions := [] }),
            (strB ("b"),
            { id := strB ("b"), name := [], description := []
              subscriptions := [], publishes := [], instructions := [] })]
          pending := [], human_pending := [], routing_mode := none, active_strategy := none }
        { Event.new (strB ("t")) [] with target := some (strB ("b")) }).2
      = [strB ("b")] ∧
    (strB ("a")) ∈ (publish (fun _ => none) (fun _ => none)
        { hats := [(strB ("a"),
            { id := strB ("a"), name := [], description := []
              subscriptions := [strB ("t")], publishes := [], instructions := [] }),
            (strB ("b"),
            { id := strB ("b"), name := [], description := []
              subscriptions := [], publishes := [], instructions := [] })]
          pending := [], human_pending := [], routing_mode := none, active_strategy := none }
        (Event.new (strB ("t")) [])).2 ∧
    (publish (fun _ => none) (fun _ => none)
        { hats := [], pending := [], human_pending := []
          routing_mode := none, active_strategy := none }
        (Event.new (strB ("human.review")) [])).2 = [] := by
  refine ⟨?_, ?_, ?_⟩
  · have h := (C1_routing_amended (fun _ => none) (fun _ => none)
      { hats := [(strB ("a"),
          { id := strB ("a"), name := [], description := []
            subscriptions := [strB ("t")], publishes := [], instructions := [] }),
          (strB ("b"),
          { id := strB ("b"), name := [], description := []
            subscriptions := [], publishes := [], instructions := [] })]
        pending := [], human_pending := [], routing_mode := none, active_strategy := none }
      { Event.new (strB ("t")) [] with target := some (strB ("b")) } []).2.1
      (by decide) (strB ("b")) rfl
    rw [h]
    decide
  · refine ((C1_routing_amended (fun _ => none) (fun _ => none)
      { hats := [(strB ("a"),
          { id := strB ("a"), name := [], description := []
            subscriptions := [strB ("t")], publishes := [], instructions := [] }),
          (strB ("b"),
          { id := strB ("b"), name := [], description := []
            subscriptions := [], publishes := [], instructions := [] })]
        pending := [], human_pending := [], routing_mode := none, active_strategy := none }
      (Event.new (strB ("t")) []) (strB ("a"))).2.2 (by decide) rfl).mpr
      (Or.inl ⟨{ id := strB ("a"), name := [], description := [],
                 subscriptions := [strB ("t")], publishes := [], instructions := [] },
        by decide, by decide, by decide⟩)
  · exact (C1_routing_amended (fun _ => none) (fun _ => none)
      { hats := [], pending := [], human_pending := []
        routing_mode := none, active_strategy := none }
      (Event.new (strB ("human.review")) []) []).1 (by decide)

set_option maxRecDepth 20000 in
/-- C4: the abandonment half of the claim holds (on the third
`build.blocked` for the same task id the id is added to the abandoned
set and exactly one `build.task.abandoned` is published for the rest of
the run), but the `abandoned_task_redispatches` counter is never
incremented: no ingest changes it — it is read in `check_termination`
(event_loop/mod.rs, line 485) and written nowhere — so after any number
of abandonments it is still `0` and the `loop_thrashing` termination
this claim describes cannot fire.  Shown by the universal frame
property and by a concrete run of four `build.blocked` batches for task
`T1`. -/
theorem C4_redispatch_counter_never_incremented :
    (∀ pt ps po hs cfg st bus events malformed,
      (process_events_from_jsonl pt ps po hs cfg st bus
          events malformed).1.abandoned_task_redispatches
        = st.abandoned_task_redispatches) ∧
    (c4run 2).1.abandoned_tasks = [] ∧
    (c4run 3).1.abandoned_tasks = [strB ("T1")] ∧
    ((pendingOf (c4run 4).2.1.pending (strB ("ralph"))).filter
        (fun e => e.topic == strB ("build.task.abandoned"))).length = 1 ∧
    (c4run 4).1.abandoned_task_redispatches = 0 ∧
    check_termination c4cfg (c4run 4).1 0 false false = none := by
  refine ⟨?_, by decide, by decide, by decide, by decide, by decide⟩
  intro pt ps po hs cfg st bus events malformed
  simp only [process_events_from_jsonl]
  repeat' split
  all_goals rfl

end Ralph
